import Mathlib

/-!
Verification development for the AlphaFlow strategy engine
(`backend/strategy/executor.py`, `backend/strategy/metrics.py`,
`backend/strategy/logic_builder.py`).

Modelling conventions:
* Python/pandas floats are modelled by `PFloat`: either `nan` or an exact
  rational.  All prices, balances and signal data in the engine are exact
  decimal-scale values, so rational arithmetic reproduces the float
  computations on the inputs exercised here.
* Division by zero is modelled as `nan`.  (IEEE gives a signed infinity when
  the numerator is nonzero; no statement below divides a nonzero value by
  zero, so the two conventions agree on everything proved here.)
* `np.sqrt` and Python's `**` are float-valued functions; they are passed as
  explicit function parameters (`s : ℚ → ℚ`, `powf : ℚ → ℚ → ℚ`).  A float
  square root is itself a rational-valued function, so `ℚ → ℚ` is a faithful
  type for it; theorems only ever assume properties true of the real
  functions (such as `s 0 = 0`).
* pandas reductions follow pandas semantics: `mean`/`std`/`max`/`min`/
  `quantile` of an empty series are `nan`, `std` uses `ddof = 1` (so the
  standard deviation of a single observation is `nan`), and reductions skip
  `nan` entries.
-/

namespace AlphaFlow

/-- A pandas/NumPy float value: `nan`, or an exact rational number. -/
inductive PFloat where
  | nan : PFloat
  | val : ℚ → PFloat
deriving DecidableEq, Repr

namespace PFloat

/-- Addition with `nan` propagation. -/
def add : PFloat → PFloat → PFloat
  | val a, val b => val (a + b)
  | _, _ => nan

/-- Subtraction with `nan` propagation. -/
def sub : PFloat → PFloat → PFloat
  | val a, val b => val (a - b)
  | _, _ => nan

/-- Multiplication with `nan` propagation. -/
def mul : PFloat → PFloat → PFloat
  | val a, val b => val (a * b)
  | _, _ => nan

/-- Division: `nan` propagates, and division by zero yields `nan`. -/
def div : PFloat → PFloat → PFloat
  | val a, val b => if b = 0 then nan else val (a / b)
  | _, _ => nan

/-- Absolute value with `nan` propagation (`abs(nan) = nan` in Python). -/
def pabs : PFloat → PFloat
  | val a => val |a|
  | nan => nan

/-- Python `==` on floats: comparisons against `nan` are `False`. -/
def pyEq : PFloat → PFloat → Bool
  | val a, val b => a = b
  | _, _ => false

end PFloat

/-- pandas `dropna`: keep the non-`nan` entries of a float series. -/
def dropna : List PFloat → List ℚ
  | [] => []
  | PFloat.nan :: xs => dropna xs
  | PFloat.val q :: xs => q :: dropna xs

/-- Sum of a rational list. -/
def qSum (xs : List ℚ) : ℚ := xs.foldr (· + ·) 0

/-- pandas `mean` of a (nan-free) series: `nan` on an empty series. -/
def pMean (xs : List ℚ) : PFloat :=
  if xs.isEmpty then PFloat.nan else PFloat.val (qSum xs / xs.length)

/-- pandas sample variance (`ddof = 1`): `nan` with fewer than two
observations, otherwise `Σ (x - mean)² / (n - 1)`. -/
def sVar (xs : List ℚ) : PFloat :=
  if xs.length ≤ 1 then PFloat.nan
  else
    let m : ℚ := qSum xs / xs.length
    PFloat.val (qSum (xs.map (fun x => (x - m) ^ 2)) / ((xs.length : ℚ) - 1))

/-- pandas `Series.std()` (`ddof = 1`) on a nan-free series, with the float
square root supplied as `s`. -/
def pStd (s : ℚ → ℚ) (xs : List ℚ) : PFloat :=
  match sVar xs with
  | PFloat.nan => PFloat.nan
  | PFloat.val v => PFloat.val (s v)

/-- Maximum of a nan-free series: `nan` when empty (pandas `max`). -/
def qListMax : List ℚ → PFloat
  | [] => PFloat.nan
  | x :: xs => PFloat.val (xs.foldl max x)

/-- Minimum of a nan-free series: `nan` when empty (pandas `min`). -/
def qListMin : List ℚ → PFloat
  | [] => PFloat.nan
  | x :: xs => PFloat.val (xs.foldl min x)

/-- pandas `max` with default `skipna=True`: drop `nan`s, `nan` if nothing
remains. -/
def pSeriesMax (xs : List PFloat) : PFloat := qListMax (dropna xs)

/-- pandas `min` with default `skipna=True`. -/
def pSeriesMin (xs : List PFloat) : PFloat := qListMin (dropna xs)

/-- pandas `cummax` helper carrying the running maximum. -/
def cummaxAux (m : ℚ) : List ℚ → List ℚ
  | [] => []
  | x :: xs => max m x :: cummaxAux (max m x) xs

/-- pandas `Series.cummax()` on a nan-free series. -/
def cummax : List ℚ → List ℚ
  | [] => []
  | x :: xs => x :: cummaxAux x xs

/-- pandas `Series.pct_change()`: first entry `nan`, then `x_i / x_{i-1} - 1`
(with division by zero modelled as `nan`). -/
def pctChangeAux (prev : ℚ) : List ℚ → List PFloat
  | [] => []
  | y :: ys => (PFloat.val y |>.div (PFloat.val prev)).sub (PFloat.val 1) :: pctChangeAux y ys

/-- pandas `Series.pct_change()` on a nan-free series. -/
def pctChange : List ℚ → List PFloat
  | [] => []
  | x :: xs => PFloat.nan :: pctChangeAux x xs

/-- pandas `Series.quantile(q)` with the default linear interpolation:
`nan` on an empty series, otherwise interpolate the sorted values at
position `q * (n - 1)`. -/
def pQuantile (xs : List ℚ) (q : ℚ) : PFloat :=
  if xs.isEmpty then PFloat.nan
  else
    let sorted := xs.mergeSort (fun a b => decide (a ≤ b))
    let h : ℚ := q * ((xs.length : ℚ) - 1)
    let lo : ℕ := (⌊h⌋).toNat
    let a := sorted.getD lo 0
    let b := sorted.getD (lo + 1) a
    PFloat.val (a + (h - (⌊h⌋ : ℚ)) * (b - a))

/-- Python exception values the modelled code can raise.  The code itself
only ever produces `indexError` (out-of-range positional `iloc`),
`valueError` (`np.cov` on arrays of mismatched lengths), `nameError`
(Python `eval` of an undefined name), `undefinedVariableError` (pandas
`DataFrame.eval` referencing a missing column) and `syntaxError` (expression
text the parser rejects).  The last three constructors name the exception
classes the specification postulates; no class of these names exists
anywhere in the repository, and no code path below produces them — they are
present only so the specification's claims can be stated and compared
against the code's actual behaviour. -/
inductive PyExc where
  | indexError : PyExc
  | valueError : PyExc
  | nameError (name : String) : PyExc
  | undefinedVariableError (name : String) : PyExc
  | syntaxError : PyExc
  | signalAlignmentError : PyExc
  | unknownConditionError : PyExc
  | unknownColumnError : PyExc
deriving DecidableEq, Repr

/-!
Metrics (`backend/strategy/metrics.py`).  Each function takes
`periods_per_year` (Python default 252), the risk-free rate (default 0) and
the `confidence` level (default 0.05) as explicit arguments; call sites pass
the Python defaults.
-/

/-- `calculate_cagr` (metrics.py, lines 6 to 15).  `powf` models Python's
float `**`; its value is never relevant to the claims below. -/
def calculate_cagr (powf : ℚ → ℚ → ℚ) (periods_per_year : ℚ)
    (portfolio_values : List ℚ) : ℚ :=
  if portfolio_values.length < 2 then 0
  else
    let start := portfolio_values.headD 0
    let endv := portfolio_values.getLastD 0
    let n_years : ℚ := (portfolio_values.length : ℚ) / periods_per_year
    if start ≤ 0 ∨ n_years ≤ 0 then 0
    else (powf (endv / start) (1 / n_years) - 1) * 100

/-- `calculate_sharpe` (metrics.py, lines 17 to 23).  `s` models `np.sqrt`
(also used inside `Series.std()`).  Note `returns.std() == 0` is a Python
float comparison: it is `False` when the standard deviation is `nan`. -/
def calculate_sharpe (s : ℚ → ℚ) (risk_free_rate periods_per_year : ℚ)
    (returns0 : List PFloat) : PFloat :=
  let returns := dropna returns0
  let excess_returns := returns.map (fun r => r - risk_free_rate / periods_per_year)
  if (pStd s returns).pyEq (PFloat.val 0) then PFloat.val 0
  else ((pMean excess_returns).div (pStd s returns)).mul (PFloat.val (s periods_per_year))

/-- `calculate_sortino` (metrics.py, lines 25 to 32). -/
def calculate_sortino (s : ℚ → ℚ) (risk_free_rate periods_per_year : ℚ)
    (returns0 : List PFloat) : PFloat :=
  let returns := dropna returns0
  let downside := returns.filter (fun r => decide (r < 0))
  if (pStd s downside).pyEq (PFloat.val 0) then PFloat.val 0
  else
    let excess_returns := returns.map (fun r => r - risk_free_rate / periods_per_year)
    ((pMean excess_returns).div (pStd s downside)).mul (PFloat.val (s periods_per_year))

/-- `calculate_calmar` (metrics.py, lines 34 to 41): CAGR as a fraction
divided by `abs` of the minimum of `portfolio_values / cummax - 1`; the
`drawdown == 0` guard is again a Python float comparison. -/
def calculate_calmar (powf : ℚ → ℚ → ℚ) (periods_per_year : ℚ)
    (portfolio_values : List ℚ) : PFloat :=
  let cagr : ℚ := calculate_cagr powf periods_per_year portfolio_values / 100
  let running_max := cummax portfolio_values
  let drawdown :=
    pSeriesMin ((portfolio_values.zip running_max).map
      (fun p => ((PFloat.val p.1).div (PFloat.val p.2)).sub (PFloat.val 1)))
  if drawdown.pyEq (PFloat.val 0) then PFloat.val 0
  else (PFloat.val cagr).div drawdown.pabs

/-- Result record of `calculate_max_drawdown`. -/
structure MaxDD where
  max_drawdown_dollar : PFloat
  max_drawdown_pct : PFloat
deriving DecidableEq, Repr

/-- `calculate_max_drawdown` (metrics.py, lines 43 to 49).  The dollar
drawdowns are exact; the percentage ones can be `nan` when a running peak is
zero. -/
def calculate_max_drawdown (portfolio_values : List ℚ) : MaxDD :=
  let running_max := cummax portfolio_values
  let drawdowns := (running_max.zip portfolio_values).map (fun p => p.1 - p.2)
  let drawdown_pct := (drawdowns.zip running_max).map
    (fun p => ((PFloat.val p.1).div (PFloat.val p.2)).mul (PFloat.val 100))
  { max_drawdown_dollar := qListMax drawdowns
    max_drawdown_pct := pSeriesMax drawdown_pct }

/-- `calculate_volatility` (metrics.py, lines 51 to 54). -/
def calculate_volatility (s : ℚ → ℚ) (periods_per_year : ℚ)
    (returns0 : List PFloat) : PFloat :=
  let returns := dropna returns0
  ((pStd s returns).mul (PFloat.val (s periods_per_year))).mul (PFloat.val 100)

/-- `calculate_var` (metrics.py, lines 56 to 59). -/
def calculate_var (confidence : ℚ) (returns0 : List PFloat) : PFloat :=
  let returns := dropna returns0
  (pQuantile returns confidence).pabs.mul (PFloat.val 100)

/-- Python's suffix slice `xs[-n:]`: for `n = 0` this is `xs[0:]`, the whole
sequence (`-0 == 0`), not the empty one — the trim in `calculate_beta` is
therefore a no-op when the shorter series is empty. -/
def pySliceLast (n : ℕ) (xs : List ℚ) : List ℚ :=
  if n = 0 then xs else xs.drop (xs.length - n)

/-- `np.cov(x, y)[0][1]` (`ddof = 1`): raises `ValueError` when the two
arrays have mismatched lengths (the internal stack fails); `nan` with fewer
than two paired observations. -/
def npCov (xs ys : List ℚ) : Except PyExc PFloat :=
  if xs.length ≠ ys.length then Except.error PyExc.valueError
  else if xs.length ≤ 1 then Except.ok PFloat.nan
  else
    let mx : ℚ := qSum xs / xs.length
    let my : ℚ := qSum ys / ys.length
    Except.ok (PFloat.val
      (qSum ((xs.zip ys).map (fun p => (p.1 - mx) * (p.2 - my))) /
        ((xs.length : ℚ) - 1)))

/-- `np.var` (`ddof = 0`): `nan` on an empty array. -/
def npVar (xs : List ℚ) : PFloat :=
  if xs.isEmpty then PFloat.nan
  else
    let m : ℚ := qSum xs / xs.length
    PFloat.val (qSum (xs.map (fun x => (x - m) ^ 2)) / xs.length)

/-- `calculate_beta` (metrics.py, lines 61 to 70): when the lengths differ,
slice both series with `[-min_len:]` (a no-op when `min_len = 0`, see
`pySliceLast`, so the lengths can still differ afterwards and `np.cov` then
raises `ValueError`), then `cov / var_benchmark` with a `var == 0` guard
(`False` on `nan`). -/
def calculate_beta (strategy_returns benchmark_returns : List ℚ) :
    Except PyExc PFloat :=
  let p :=
    if strategy_returns.length ≠ benchmark_returns.length then
      let min_len := min strategy_returns.length benchmark_returns.length
      (pySliceLast min_len strategy_returns,
       pySliceLast min_len benchmark_returns)
    else (strategy_returns, benchmark_returns)
  (npCov p.1 p.2).map (fun cov =>
    let var_bench := npVar p.2
    if var_bench.pyEq (PFloat.val 0) then PFloat.val 0
    else cov.div var_bench)

/-!
Trade simulator (`backend/strategy/executor.py`, `execute_strategy`).
-/

/-- One OHLCV bar of the price DataFrame (`open` is a Lean keyword, hence
`openP`). -/
structure Bar where
  timestamp : ℤ
  openP : ℚ
  high : ℚ
  low : ℚ
  close : ℚ
  volume : ℚ
deriving DecidableEq, Repr

instance : Inhabited Bar := ⟨⟨0, 0, 0, 0, 0, 0⟩⟩

/-- A ledger record: the Python dicts `{'type': 'entry', 'price', 'timestamp'}`
and `{'type': 'exit', 'price', 'timestamp', 'pnl', 'balance'}`. -/
inductive TradeRec where
  | entry (price : ℚ) (timestamp : ℤ) : TradeRec
  | exit (price : ℚ) (timestamp : ℤ) (pnl : ℚ) (balance : ℚ) : TradeRec
deriving DecidableEq, Repr

/-- The loop state of `execute_strategy` (executor.py, lines 29 to 36). -/
structure ExecState where
  trades : List TradeRec
  in_position : Bool
  entry_price : ℚ
  balance : ℚ
  equity_curve : List ℚ
  max_equity : ℚ
  drawdown : ℚ
  entry_time : Option ℤ
deriving DecidableEq, Repr

/-- Positional `.iloc[i]`: raises `IndexError` out of range. -/
def iloc {α : Type} (xs : List α) (i : ℕ) : Except PyExc α :=
  match xs[i]? with
  | some v => Except.ok v
  | none => Except.error PyExc.indexError

/-- One iteration of the `for i in range(len(df))` loop of
`execute_strategy` (executor.py, lines 37 to 60).  Evaluation order and
short-circuiting follow the Python source: `df['close'].iloc[i]` is read
first; the entry signal is read only when flat, the exit signal only when in
position. -/
def execBar (df : List Bar) (entry_signal exit_signal : List Bool)
    (order_type : String) (position_size : ℚ)
    (st : ExecState) (i : ℕ) : Except PyExc ExecState := do
  let bar ← iloc df i
  let price := bar.close
  let st1 ←
    if !st.in_position then do
      let e ← iloc entry_signal i
      if e then do
        let entry_price ←
          if order_type = "market" then pure price
          else if i + 1 < df.length then do
            let nb ← iloc df (i + 1)
            pure nb.openP
          else pure price
        pure { st with
          in_position := true
          entry_price := entry_price
          entry_time := some bar.timestamp
          trades := st.trades ++ [TradeRec.entry entry_price bar.timestamp] }
      else pure st
    else do
      let x ← iloc exit_signal i
      if x then do
        let exit_price ←
          if order_type = "market" then pure price
          else if i + 1 < df.length then do
            let nb ← iloc df (i + 1)
            pure nb.openP
          else pure price
        let pnl := (exit_price - st.entry_price) * position_size
        let balance := st.balance + pnl
        pure { st with
          in_position := false
          balance := balance
          entry_time := none
          trades := st.trades ++ [TradeRec.exit exit_price bar.timestamp pnl balance] }
      else pure st
  let max_equity := max st1.max_equity st1.balance
  pure { st1 with
    equity_curve := st1.equity_curve ++ [st1.balance]
    max_equity := max_equity
    drawdown := max st1.drawdown (max_equity - st1.balance) }

/-- The simulator loop over a list of bar indices. -/
def runIdx (df : List Bar) (entry_signal exit_signal : List Bool)
    (order_type : String) (position_size : ℚ) :
    List ℕ → ExecState → Except PyExc ExecState
  | [], st => Except.ok st
  | i :: rest, st => do
    let st' ← execBar df entry_signal exit_signal order_type position_size st i
    runIdx df entry_signal exit_signal order_type position_size rest st'

/-- The initial loop state (executor.py, lines 29 to 36). -/
def initState (initial_balance : ℚ) : ExecState :=
  { trades := []
    in_position := false
    entry_price := 0
    balance := initial_balance
    equity_curve := []
    max_equity := initial_balance
    drawdown := 0
    entry_time := none }

/-- The final loop state of `execute_strategy` on a series of `df.length`
bars. -/
def execFinalState (df : List Bar) (entry_signal exit_signal : List Bool)
    (order_type : String) (initial_balance position_size : ℚ) :
    Except PyExc ExecState :=
  runIdx df entry_signal exit_signal order_type position_size
    (List.range df.length) (initState initial_balance)

/-- The summary dict built at executor.py, lines 77 to 91. -/
structure Summary where
  total_trades : ℕ
  total_pnl : ℚ
  win_rate : ℚ
  max_drawdown_dollar : PFloat
  max_drawdown_pct : PFloat
  cagr : ℚ
  sharpe : PFloat
  sortino : PFloat
  calmar : PFloat
  volatility : PFloat
  var_95 : PFloat
  beta : Option PFloat
  final_balance : ℚ
deriving DecidableEq, Repr

/-- The dict returned by `execute_strategy` (executor.py, line 92): trades
and summary (the equity curve is internal to the function; `execFinalState`
exposes it for the statements below). -/
structure ExecResult where
  trades : List TradeRec
  summary : Summary
deriving DecidableEq, Repr

/-- Whether a ledger record is an exit record (`t['type'] == 'exit'`). -/
def isExit : TradeRec → Bool
  | TradeRec.exit _ _ _ _ => true
  | TradeRec.entry _ _ => false

/-- Python `t.get('pnl', 0)`: entry records carry no pnl. -/
def pnlField : TradeRec → ℚ
  | TradeRec.entry _ _ => 0
  | TradeRec.exit _ _ pnl _ => pnl

/-- `execute_strategy` (executor.py, lines 8 to 92): run the loop, then
derive returns from the equity curve and assemble the summary.  `s` models
`np.sqrt` and `powf` models float `**`; `benchmark_returns` is the optional
benchmark series.  Of the metric calls only `calculate_beta` can raise (its
`np.cov` `ValueError`); the other metrics are computed before it at lines
65 to 71 and are total, so its exception propagates out of the function. -/
def execute_strategy (s : ℚ → ℚ) (powf : ℚ → ℚ → ℚ)
    (df : List Bar) (entry_signal exit_signal : List Bool)
    (order_type : String) (initial_balance position_size : ℚ)
    (benchmark_returns : Option (List ℚ)) : Except PyExc ExecResult :=
  (execFinalState df entry_signal exit_signal order_type initial_balance
    position_size).bind (fun st =>
    let portfolio_values := st.equity_curve
    let returns : List ℚ := dropna (pctChange portfolio_values)
    let returnsP : List PFloat := returns.map PFloat.val
    let max_dd := calculate_max_drawdown portfolio_values
    let total_trades := (st.trades.filter isExit).length
    let winners := (st.trades.filter (fun t => decide (pnlField t > 0) && isExit t)).length
    (match benchmark_returns with
      | none => Except.ok none
      | some br => (calculate_beta returns br).map some).map (fun beta =>
    { trades := st.trades
      summary :=
      { total_trades := total_trades
        total_pnl := st.balance - initial_balance
        win_rate :=
          if total_trades = 0 then 0
          else (winners : ℚ) / (total_trades : ℚ) * 100
        max_drawdown_dollar := max_dd.max_drawdown_dollar
        max_drawdown_pct := max_dd.max_drawdown_pct
        cagr := calculate_cagr powf 252 portfolio_values
        sharpe := calculate_sharpe s 0 252 returnsP
        sortino := calculate_sortino s 0 252 returnsP
        calmar := calculate_calmar powf 252 portfolio_values
        volatility := calculate_volatility s 252 returnsP
        var_95 := calculate_var (1 / 20) returnsP
        beta := beta
        final_balance := st.balance } }))

/-!
Condition and logic evaluation (`backend/strategy/logic_builder.py`,
`evaluate_logic`).

The DataFrame is modelled for this component as a list of named numeric
columns.  A condition string is modelled at the token level (lexing of the
raw characters is not the interesting part); `pandas.DataFrame.eval` parses
the tokens against Python's expression grammar restricted to the modelled
token alphabet — arithmetic with unary signs, and possibly-chained
comparisons, so a bare arithmetic expression evaluates to a numeric series
and `0 < close < 3` to a boolean one — and then evaluates, resolving column
names: a missing column raises pandas' `UndefinedVariableError`, and text
the grammar cannot parse raises a syntax error.  The logic string is
modelled as the boolean expression Python's `eval` parses out of it after
the regex substitutions `AND → &`, `OR → |`, `NOT → ~` (logic_builder.py,
lines 22 to 28); evaluating it resolves `COND{i}` names in `local_dict` and
raises Python's `NameError` at the first undefined name.
-/

/-- A DataFrame as seen by the logic builder: named numeric columns. -/
def Frame : Type := List (String × List ℚ)

/-- Column lookup by name. -/
def getCol (df : Frame) (name : String) : Option (List ℚ) :=
  (df.find? (fun p => p.1 = name)).map (fun p => p.2)

/-- Number of rows of the frame (length of its first column). -/
def nRows (df : Frame) : ℕ :=
  match df with
  | [] => 0
  | c :: _ => c.2.length

/-- Tokens of a condition expression string. -/
inductive CondTok where
  | ident (s : String) : CondTok
  | num (q : ℚ) : CondTok
  | ltTok : CondTok
  | leTok : CondTok
  | gtTok : CondTok
  | geTok : CondTok
  | eqTok : CondTok
  | neTok : CondTok
  | addTok : CondTok
  | subTok : CondTok
  | mulTok : CondTok
  | divTok : CondTok
deriving DecidableEq, Repr

/-- Arithmetic operators of the condition grammar. -/
inductive ArithOp where
  | add | sub | mul | div
deriving DecidableEq, Repr

/-- Comparison operators of the condition grammar. -/
inductive CmpOp where
  | lt | le | gt | ge | eq | ne
deriving DecidableEq, Repr

/-- Arithmetic expressions over columns and literals. -/
inductive ArithE where
  | col (s : String) : ArithE
  | lit (q : ℚ) : ArithE
  | binop (op : ArithOp) (a b : ArithE) : ArithE
deriving DecidableEq, Repr

/-- A condition: a comparison between two arithmetic expressions. -/
structure CondE where
  lhs : ArithE
  chain : List (CmpOp × ArithE)
deriving DecidableEq, Repr

/-- Parse a factor: optional unary `+`/`-` signs followed by a column name
or numeric literal (Python's `factor` rule restricted to the modelled token
alphabet).  Unary minus is represented as `0 - x`, which evaluates pointwise
to the same series; unary plus is the identity.  Fuel-bounded like the other
parsing functions: callers pass at least the token-list length, and each
recursive step consumes a token. -/
def parseAtom : ℕ → List CondTok → Except PyExc (ArithE × List CondTok)
  | _, CondTok.ident s :: rest => Except.ok (ArithE.col s, rest)
  | _, CondTok.num q :: rest => Except.ok (ArithE.lit q, rest)
  | fuel + 1, CondTok.subTok :: rest => do
    let (a, r) ← parseAtom fuel rest
    Except.ok (ArithE.binop ArithOp.sub (ArithE.lit 0) a, r)
  | fuel + 1, CondTok.addTok :: rest => parseAtom fuel rest
  | _, _ => Except.error PyExc.syntaxError

/-- Parse a chain of `*` and `/` after a factor. -/
def parseMulChain : ℕ → ArithE → List CondTok → Except PyExc (ArithE × List CondTok)
  | fuel + 1, acc, CondTok.mulTok :: rest => do
    let (a, r) ← parseAtom rest.length rest
    parseMulChain fuel (ArithE.binop ArithOp.mul acc a) r
  | fuel + 1, acc, CondTok.divTok :: rest => do
    let (a, r) ← parseAtom rest.length rest
    parseMulChain fuel (ArithE.binop ArithOp.div acc a) r
  | _, acc, toks => Except.ok (acc, toks)

/-- Parse a multiplicative expression. -/
def parseMul (fuel : ℕ) (toks : List CondTok) : Except PyExc (ArithE × List CondTok) := do
  let (a, r) ← parseAtom toks.length toks
  parseMulChain fuel a r

/-- Parse a chain of `+` and `-` over multiplicative expressions. -/
def parseAddChain : ℕ → ArithE → List CondTok → Except PyExc (ArithE × List CondTok)
  | fuel + 1, acc, CondTok.addTok :: rest => do
    let (a, r) ← parseMul fuel rest
    parseAddChain fuel (ArithE.binop ArithOp.add acc a) r
  | fuel + 1, acc, CondTok.subTok :: rest => do
    let (a, r) ← parseMul fuel rest
    parseAddChain fuel (ArithE.binop ArithOp.sub acc a) r
  | _, acc, toks => Except.ok (acc, toks)

/-- Parse an arithmetic expression (standard precedence: `* /` over `+ -`). -/
def parseArith (fuel : ℕ) (toks : List CondTok) : Except PyExc (ArithE × List CondTok) := do
  let (a, r) ← parseMul fuel toks
  parseAddChain fuel a r

/-- Recognize a comparison token. -/
def cmpOfTok : CondTok → Option CmpOp
  | CondTok.ltTok => some CmpOp.lt
  | CondTok.leTok => some CmpOp.le
  | CondTok.gtTok => some CmpOp.gt
  | CondTok.geTok => some CmpOp.ge
  | CondTok.eqTok => some CmpOp.eq
  | CondTok.neTok => some CmpOp.ne
  | _ => none

/-- Parse the (possibly empty) comparison chain following the first
arithmetic expression, consuming all remaining tokens: Python's
`comparison := arith (cmpop arith)*`, so a bare arithmetic expression (empty
chain) and a chained comparison such as `0 < close < 3` both parse. -/
def parseChain : ℕ → List CondTok → Except PyExc (List (CmpOp × ArithE))
  | _, [] => Except.ok []
  | fuel + 1, t :: rest =>
    match cmpOfTok t with
    | some c => do
      let (a, r) ← parseArith rest.length rest
      let chain ← parseChain fuel r
      Except.ok ((c, a) :: chain)
    | none => Except.error PyExc.syntaxError
  | 0, _ :: _ => Except.error PyExc.syntaxError

/-- Parse a full condition: an arithmetic expression followed by a
comparison chain consuming every remaining token.  Over the modelled token
alphabet (column names, numeric literals, the six comparison operators and
`+ - * /`; no parentheses, `**`, boolean keywords or calls — none of which
the claims need) this accepts exactly the expressions Python's parser
accepts, and rejects the rest with a syntax error. -/
def parseCond (toks : List CondTok) : Except PyExc CondE := do
  let (l, r1) ← parseArith toks.length toks
  let chain ← parseChain r1.length r1
  Except.ok ⟨l, chain⟩

/-- Semantics of an arithmetic operator (division by zero: see the module
comment; no claim below divides by zero). -/
def arithOpFn : ArithOp → ℚ → ℚ → ℚ
  | ArithOp.add => (· + ·)
  | ArithOp.sub => (· - ·)
  | ArithOp.mul => (· * ·)
  | ArithOp.div => (· / ·)

/-- Semantics of a comparison operator. -/
def cmpOpFn : CmpOp → ℚ → ℚ → Bool
  | CmpOp.lt => fun a b => decide (a < b)
  | CmpOp.le => fun a b => decide (a ≤ b)
  | CmpOp.gt => fun a b => decide (a > b)
  | CmpOp.ge => fun a b => decide (a ≥ b)
  | CmpOp.eq => fun a b => decide (a = b)
  | CmpOp.ne => fun a b => decide (a ≠ b)

/-- Evaluate an arithmetic expression to a column-length series; an
undefined column name raises pandas' `UndefinedVariableError`. -/
def evalArith (df : Frame) : ArithE → Except PyExc (List ℚ)
  | ArithE.col s =>
    match getCol df s with
    | some v => Except.ok v
    | none => Except.error (PyExc.undefinedVariableError s)
  | ArithE.lit q => Except.ok (List.replicate (nRows df) q)
  | ArithE.binop op a b => do
    let xs ← evalArith df a
    let ys ← evalArith df b
    Except.ok (List.zipWith (arithOpFn op) xs ys)

/-- The value of a `DataFrame.eval` call: a numeric series (bare
arithmetic) or a boolean series (a comparison). -/
inductive EvalResult where
  | numeric (vals : List ℚ) : EvalResult
  | boolean (vals : List Bool) : EvalResult
deriving DecidableEq, Repr

/-- Evaluate a comparison chain against the series `prev` of its left
neighbour: `a < b < c` is the pointwise conjunction of `a < b` and `b < c`,
with the operand series evaluated left to right (so the first missing column
in source order raises). -/
def evalChain (df : Frame) (prev : List ℚ) :
    List (CmpOp × ArithE) → Except PyExc (List Bool)
  | [] => Except.ok (List.replicate prev.length true)
  | (c, a) :: rest => do
    let v ← evalArith df a
    let bs ← evalChain df v rest
    Except.ok (List.zipWith (· && ·) (List.zipWith (cmpOpFn c) prev v) bs)

/-- Evaluate a parsed condition: a numeric series when there is no
comparison, a boolean series otherwise. -/
def evalCondE (df : Frame) (c : CondE) : Except PyExc EvalResult := do
  let xs ← evalArith df c.lhs
  match c.chain with
  | [] => Except.ok (EvalResult.numeric xs)
  | chain => (evalChain df xs chain).map EvalResult.boolean

/-- `df.eval(cond)` (logic_builder.py, line 20): parse the condition text,
then evaluate it over the frame's columns. -/
def pandasEval (df : Frame) (toks : List CondTok) : Except PyExc EvalResult := do
  let c ← parseCond toks
  evalCondE df c

/-- `df.eval` specialised to boolean-valued conditions — the only shape
`evaluate_logic` is exercised on in this development (its `cond_results`
feed the boolean `&`/`|`/`~` operators of the logic string).  Defined
through the full `pandasEval` grammar; a bare-arithmetic condition is
outside this fragment (Python would store the numeric series and fail only
if the logic string applies a bitwise operator to it) and is mapped to a
syntax error as a conservative stand-in — no theorem below evaluates one. -/
def pandasEvalCmp (df : Frame) (toks : List CondTok) : Except PyExc (List Bool) := do
  let r ← pandasEval df toks
  match r with
  | EvalResult.boolean bs => Except.ok bs
  | EvalResult.numeric _ => Except.error PyExc.syntaxError

/-- The boolean expression Python's `eval` parses out of the transformed
logic string (after `AND → &`, `OR → |`, `NOT → ~`). -/
inductive LogicE where
  | lvar (s : String) : LogicE
  | land (a b : LogicE) : LogicE
  | lor (a b : LogicE) : LogicE
  | lnot (a : LogicE) : LogicE
deriving DecidableEq, Repr

/-- Evaluate the logic expression against `local_dict`: operands are
evaluated left to right (`&`/`|` do not short-circuit), and an undefined
name raises Python's `NameError`. -/
def evalLogic (env : List (String × List Bool)) : LogicE → Except PyExc (List Bool)
  | LogicE.lvar s =>
    match (env.find? (fun p => p.1 = s)).map (fun p => p.2) with
    | some v => Except.ok v
    | none => Except.error (PyExc.nameError s)
  | LogicE.land a b => do
    let xs ← evalLogic env a
    let ys ← evalLogic env b
    Except.ok (List.zipWith (· && ·) xs ys)
  | LogicE.lor a b => do
    let xs ← evalLogic env a
    let ys ← evalLogic env b
    Except.ok (List.zipWith (· || ·) xs ys)
  | LogicE.lnot a => do
    let xs ← evalLogic env a
    Except.ok (xs.map (fun b => !b))

/-- The name `COND{idx+1}` given to the `idx`-th condition
(logic_builder.py, line 18). -/
def condName (idx : ℕ) : String := "COND" ++ toString (idx + 1)

/-- The `cond_results` dict: each condition is evaluated in order with
`df.eval`; the first failure propagates (logic_builder.py, lines 16 to 20). -/
def buildEnv (df : Frame) : List (List CondTok) → ℕ →
    Except PyExc (List (String × List Bool))
  | [], _ => Except.ok []
  | c :: cs, idx => do
    let v ← pandasEvalCmp df c
    let rest ← buildEnv df cs (idx + 1)
    Except.ok ((condName idx, v) :: rest)

/-- `evaluate_logic` (logic_builder.py, lines 6 to 29): evaluate every
condition into `COND{i}` series, then evaluate the transformed logic
expression over them. -/
def evaluate_logic (df : Frame) (conditions : List (List CondTok))
    (logic : LogicE) : Except PyExc (List Bool) := do
  let env ← buildEnv df conditions 0
  evalLogic env logic

/-- The condition names referenced by a logic expression. -/
def logicVars : LogicE → List String
  | LogicE.lvar s => [s]
  | LogicE.land a b => logicVars a ++ logicVars b
  | LogicE.lor a b => logicVars a ++ logicVars b
  | LogicE.lnot a => logicVars a

/-- The column names referenced by an arithmetic expression. -/
def arithCols : ArithE → List String
  | ArithE.col s => [s]
  | ArithE.lit _ => []
  | ArithE.binop _ a b => arithCols a ++ arithCols b

/-- The column names referenced by a condition: those of the first
arithmetic expression and of every chain element, in evaluation order. -/
def condCols (c : CondE) : List String :=
  arithCols c.lhs ++ (c.chain.map (fun p => arithCols p.2)).flatten

/-- The transaction price rule of executor.py, lines 41 and 45: same-bar
close for market orders, otherwise the next bar's open with fallback to the
current close on the last bar. -/
def stepPrice (df : List Bar) (order_type : String) (i : ℕ) : ℚ :=
  if order_type = "market" then (df.getD i default).close
  else if i + 1 < df.length then (df.getD (i + 1) default).openP
  else (df.getD i default).close

/-- Pure model of one loop iteration (total function; agrees with `execBar`
whenever the indices read on the taken path are in range). -/
def stepModel (df : List Bar) (entry_signal exit_signal : List Bool)
    (order_type : String) (position_size : ℚ)
    (st : ExecState) (i : ℕ) : ExecState :=
  let bar := df.getD i default
  let st1 :=
    if st.in_position = false then
      if entry_signal.getD i false then
        let ep := stepPrice df order_type i
        { st with
          in_position := true
          entry_price := ep
          entry_time := some bar.timestamp
          trades := st.trades ++ [TradeRec.entry ep bar.timestamp] }
      else st
    else
      if exit_signal.getD i false then
        let xp := stepPrice df order_type i
        let pnl := (xp - st.entry_price) * position_size
        let b := st.balance + pnl
        { st with
          in_position := false
          balance := b
          entry_time := none
          trades := st.trades ++ [TradeRec.exit xp bar.timestamp pnl b] }
      else st
  let me := max st1.max_equity st1.balance
  { st1 with
    equity_curve := st1.equity_curve ++ [st1.balance]
    max_equity := me
    drawdown := max st1.drawdown (me - st1.balance) }

/-- The loop as a pure fold of `stepModel`. -/
def runModel (df : List Bar) (entry_signal exit_signal : List Bool)
    (order_type : String) (position_size : ℚ)
    (l : List ℕ) (st : ExecState) : ExecState :=
  l.foldl (stepModel df entry_signal exit_signal order_type position_size) st

/-- Sum of the `pnl` fields of a ledger (entry records contribute 0). -/
def exitPnlSum (ts : List TradeRec) : ℚ := qSum (ts.map pnlField)

/-- Erase the balance field of an exit record, keeping kind, price,
timestamp and pnl (the claim-C10 projection of a ledger record). -/
def scrubBalance : TradeRec → TradeRec
  | TradeRec.entry p t => TradeRec.entry p t
  | TradeRec.exit p t pnl _ => TradeRec.exit p t pnl 0

/-- Relation between two simulator states that differ only by a constant
balance offset `d`: the position state, entry price and scrubbed ledger
agree, while balance, equity curve and running peak are shifted by `d` (the
running drawdown agrees, the offsets cancelling). -/
def BalRel (d : ℚ) (st1 st2 : ExecState) : Prop :=
  st2.in_position = st1.in_position ∧
  st2.entry_price = st1.entry_price ∧
  st2.entry_time = st1.entry_time ∧
  st2.trades.map scrubBalance = st1.trades.map scrubBalance ∧
  st2.balance = st1.balance + d ∧
  st2.equity_curve = st1.equity_curve.map (fun q => q + d) ∧
  st2.max_equity = st1.max_equity + d ∧
  st2.drawdown = st1.drawdown

/-!
Concrete data for closed statements.
-/

/-- Identity on ℚ: concrete stand-in for `np.sqrt` in closed computations
whose asserted fields do not depend on the square root (it does satisfy
`idQ 0 = 0`, as the float square root does). -/
def idQ : ℚ → ℚ := fun q => q

/-- Concrete stand-in for float `**` in closed computations whose asserted
fields do not depend on it. -/
def fstPow : ℚ → ℚ → ℚ := fun a _ => a

/-- Scenario A series: three bars with closes 100, 105, 95 (timestamps
0, 1, 2). -/
def dfScenarioA : List Bar :=
  [⟨0, 100, 100, 100, 100, 0⟩, ⟨1, 105, 105, 105, 105, 0⟩,
   ⟨2, 95, 95, 95, 95, 0⟩]

/-- Whether an `Except` value is a success. -/
def isOkE {ε α : Type} : Except ε α → Bool
  | Except.ok _ => true
  | Except.error _ => false

/-- The returns series the executor derives from an equity curve
(executor.py, line 63): `pct_change().dropna()`, as a float series. -/
def returnsOf (portfolio_values : List ℚ) : List PFloat :=
  (dropna (pctChange portfolio_values)).map PFloat.val

/-- A one-bar series. -/
def dfOneBar : List Bar := [⟨0, 1, 1, 1, 1, 0⟩]

/-- A two-bar series (all prices 1). -/
def df2Bars : List Bar := [⟨0, 1, 1, 1, 1, 0⟩, ⟨1, 1, 1, 1, 1, 0⟩]

/-- A three-point benchmark returns series. -/
def bench3 : List ℚ := [1, 2, 3]

/-- An entry signal that fires on bar 0. -/
def esA : List Bool := [true, false, false]

/-- An exit signal that fires on bars 0 and 2 (true on bar 0 to exercise the
same-bar tie-break). -/
def xsBoth : List Bool := [true, false, true]

/-- A two-row frame with `close`, `ema_20` and `ema_50` columns. -/
def frameFull : Frame :=
  [("close", [1, 2]), ("ema_20", [1, 2]), ("ema_50", [0, 3])]

/-- A two-row frame lacking the `ema_50` column (Scenario C). -/
def frameNoEma50 : Frame := [("close", [1, 2]), ("ema_20", [1, 2])]

/-- Tokens of the condition string `"ema_20 > ema_50"`. -/
def condEma : List CondTok :=
  [CondTok.ident "ema_20", CondTok.gtTok, CondTok.ident "ema_50"]

/-- Tokens of the condition string `"close > 0"`. -/
def condClose : List CondTok :=
  [CondTok.ident "close", CondTok.gtTok, CondTok.num 0]

/-- Tokens of the malformed condition string `"ema_20 >"` (missing right
operand). -/
def condMalformed : List CondTok := [CondTok.ident "ema_20", CondTok.gtTok]

/-- The logic expression parsed out of `"COND1 AND COND3"`. -/
def logicCond1And3 : LogicE :=
  LogicE.land (LogicE.lvar "COND1") (LogicE.lvar "COND3")

/-- The logic expression parsed out of `"COND1 AND COND2"`. -/
def logicCond1And2 : LogicE :=
  LogicE.land (LogicE.lvar "COND1") (LogicE.lvar "COND2")

/-- A concrete `local_dict` with two defined conditions. -/
def envW : List (String × List Bool) :=
  [("COND1", [true, true]), ("COND2", [false, true])]

/-!
Helper lemmas: a pure model of the simulator loop body, proved equal to
`execBar` whenever the accessed indices are in range, plus the
characterization of the out-of-range cases.
-/

@[simp] theorem exceptBind_ok {ε α β : Type} (a : α) (f : α → Except ε β) :
    (Except.ok a : Except ε α) >>= f = f a := rfl

@[simp] theorem exceptBind_error {ε α β : Type} (e : ε) (f : α → Except ε β) :
    (Except.error e : Except ε α) >>= f = Except.error e := rfl

@[simp] theorem exceptPure_eq {ε α : Type} (a : α) :
    (pure a : Except ε α) = Except.ok a := rfl

theorem iloc_eq_ok {α : Type} (xs : List α) (i : ℕ) (h : i < xs.length) :
    iloc xs i = Except.ok xs[i] := by
  simp [iloc, List.getElem?_eq_getElem h]

theorem iloc_eq_error {α : Type} (xs : List α) (i : ℕ) (h : xs.length ≤ i) :
    iloc xs i = Except.error PyExc.indexError := by
  simp [iloc, List.getElem?_eq_none h]

theorem getD_eq_of_lt {α : Type} (xs : List α) (d : α) (i : ℕ)
    (h : i < xs.length) : xs.getD i d = xs[i] := by
  simp [List.getD_eq_getElem?_getD, List.getElem?_eq_getElem h]

theorem execBar_eq_stepModel (df : List Bar) (es xs : List Bool)
    (ot : String) (ps : ℚ) (st : ExecState) (i : ℕ)
    (hdf : i < df.length)
    (hes : st.in_position = false → i < es.length)
    (hxs : st.in_position = true → i < xs.length) :
    execBar df es xs ot ps st i = Except.ok (stepModel df es xs ot ps st i) := by
  have hbar : iloc df i = Except.ok df[i] := iloc_eq_ok _ _ hdf
  cases hp : st.in_position with
  | false =>
    have he : i < es.length := hes hp
    have hesig : iloc es i = Except.ok es[i] := iloc_eq_ok _ _ he
    cases hev : es[i] with
    | true =>
      by_cases hm : ot = "market"
      · simp [execBar, stepModel, stepPrice, hbar, hp, hesig, hev, hm,
          List.getD_eq_getElem?_getD, List.getElem?_eq_getElem hdf,
          List.getElem?_eq_getElem he]
      · by_cases hnext : i + 1 < df.length
        · simp [execBar, stepModel, stepPrice, hbar, hp, hesig, hev, hm, hnext,
            iloc_eq_ok df (i + 1) hnext, List.getD_eq_getElem?_getD,
            List.getElem?_eq_getElem hdf, List.getElem?_eq_getElem he,
            List.getElem?_eq_getElem hnext]
        · simp [execBar, stepModel, stepPrice, hbar, hp, hesig, hev, hm, hnext,
            List.getD_eq_getElem?_getD, List.getElem?_eq_getElem hdf,
            List.getElem?_eq_getElem he]
    | false =>
      simp [execBar, stepModel, hbar, hp, hesig, hev,
        List.getD_eq_getElem?_getD, List.getElem?_eq_getElem hdf,
        List.getElem?_eq_getElem he]
  | true =>
    have hx : i < xs.length := hxs hp
    have hxsig : iloc xs i = Except.ok xs[i] := iloc_eq_ok _ _ hx
    cases hxv : xs[i] with
    | true =>
      by_cases hm : ot = "market"
      · simp [execBar, stepModel, stepPrice, hbar, hp, hxsig, hxv, hm,
          List.getD_eq_getElem?_getD, List.getElem?_eq_getElem hdf,
          List.getElem?_eq_getElem hx]
      · by_cases hnext : i + 1 < df.length
        · simp [execBar, stepModel, stepPrice, hbar, hp, hxsig, hxv, hm, hnext,
            iloc_eq_ok df (i + 1) hnext, List.getD_eq_getElem?_getD,
            List.getElem?_eq_getElem hdf, List.getElem?_eq_getElem hx,
            List.getElem?_eq_getElem hnext]
        · simp [execBar, stepModel, stepPrice, hbar, hp, hxsig, hxv, hm, hnext,
            List.getD_eq_getElem?_getD, List.getElem?_eq_getElem hdf,
            List.getElem?_eq_getElem hx]
    | false =>
      simp [execBar, stepModel, hbar, hp, hxsig, hxv,
        List.getD_eq_getElem?_getD, List.getElem?_eq_getElem hdf,
        List.getElem?_eq_getElem hx]

theorem execBar_df_oob (df : List Bar) (es xs : List Bool) (ot : String)
    (ps : ℚ) (st : ExecState) (i : ℕ) (h : df.length ≤ i) :
    execBar df es xs ot ps st i = Except.error PyExc.indexError := by
  simp [execBar, iloc_eq_error df i h]

theorem execBar_entry_oob (df : List Bar) (es xs : List Bool) (ot : String)
    (ps : ℚ) (st : ExecState) (i : ℕ) (hdf : i < df.length)
    (hp : st.in_position = false) (h : es.length ≤ i) :
    execBar df es xs ot ps st i = Except.error PyExc.indexError := by
  simp [execBar, iloc_eq_ok df i hdf, hp, iloc_eq_error es i h]

theorem execBar_exit_oob (df : List Bar) (es xs : List Bool) (ot : String)
    (ps : ℚ) (st : ExecState) (i : ℕ) (hdf : i < df.length)
    (hp : st.in_position = true) (h : xs.length ≤ i) :
    execBar df es xs ot ps st i = Except.error PyExc.indexError := by
  simp [execBar, iloc_eq_ok df i hdf, hp, iloc_eq_error xs i h]

theorem runIdx_eq_runModel (df : List Bar) (es xs : List Bool) (ot : String)
    (ps : ℚ) (l : List ℕ) (st : ExecState)
    (hl : ∀ i ∈ l, i < df.length ∧ i < es.length ∧ i < xs.length) :
    runIdx df es xs ot ps l st = Except.ok (runModel df es xs ot ps l st) := by
  induction l generalizing st with
  | nil => rfl
  | cons i rest ih =>
    have hi := hl i (List.mem_cons_self i rest)
    rw [runIdx, execBar_eq_stepModel df es xs ot ps st i hi.1
      (fun _ => hi.2.1) (fun _ => hi.2.2)]
    simpa [runModel] using ih _ (fun j hj => hl j (List.mem_cons_of_mem _ hj))

theorem runIdx_append (df : List Bar) (es xs : List Bool) (ot : String)
    (ps : ℚ) (l1 l2 : List ℕ) (st : ExecState) :
    runIdx df es xs ot ps (l1 ++ l2) st =
      (runIdx df es xs ot ps l1 st).bind (runIdx df es xs ot ps l2) := by
  induction l1 generalizing st with
  | nil => rfl
  | cons i rest ih =>
    rw [List.cons_append, runIdx, runIdx]
    cases execBar df es xs ot ps st i with
    | error e => rfl
    | ok st' => simpa using ih st'

theorem exitPnlSum_append (ts : List TradeRec) (r : TradeRec) :
    exitPnlSum (ts ++ [r]) = exitPnlSum ts + pnlField r := by
  induction ts with
  | nil => simp [exitPnlSum, qSum]
  | cons t ts ih => simp [exitPnlSum, qSum] at ih ⊢ ; rw [ih] ; ring

/-- One step preserves the accounting identity between the balance and the
accumulated exit pnl. -/
theorem stepModel_balance_identity (df : List Bar) (es xs : List Bool)
    (ot : String) (ps : ℚ) (st : ExecState) (i : ℕ) :
    (stepModel df es xs ot ps st i).balance -
      exitPnlSum (stepModel df es xs ot ps st i).trades =
      st.balance - exitPnlSum st.trades := by
  unfold stepModel
  cases hp : st.in_position with
  | false =>
    cases hev : es.getD i false <;>
      simp [hp, hev, exitPnlSum_append, pnlField]
  | true =>
    cases hxv : xs.getD i false <;>
      simp [hp, hxv, exitPnlSum_append, pnlField]

theorem runModel_balance_identity (df : List Bar) (es xs : List Bool)
    (ot : String) (ps : ℚ) (l : List ℕ) (st : ExecState) :
    (runModel df es xs ot ps l st).balance -
      exitPnlSum (runModel df es xs ot ps l st).trades =
      st.balance - exitPnlSum st.trades := by
  induction l generalizing st with
  | nil => rfl
  | cons i rest ih =>
    rw [runModel, List.foldl_cons]
    rw [show (List.foldl (stepModel df es xs ot ps)
      (stepModel df es xs ot ps st i) rest) =
      runModel df es xs ot ps rest (stepModel df es xs ot ps st i) from rfl]
    rw [ih]
    exact stepModel_balance_identity df es xs ot ps st i

/-- Each step appends exactly its post-step balance to the equity curve. -/
theorem stepModel_equity (df : List Bar) (es xs : List Bool) (ot : String)
    (ps : ℚ) (st : ExecState) (i : ℕ) :
    (stepModel df es xs ot ps st i).equity_curve =
      st.equity_curve ++ [(stepModel df es xs ot ps st i).balance] := by
  unfold stepModel
  cases hp : st.in_position with
  | false => cases hev : es.getD i false <;> simp [hp, hev]
  | true => cases hxv : xs.getD i false <;> simp [hp, hxv]

/-- The run only ever appends to the equity curve. -/
theorem runModel_equity_prefix (df : List Bar) (es xs : List Bool)
    (ot : String) (ps : ℚ) (l : List ℕ) (st : ExecState) :
    ∃ tail, (runModel df es xs ot ps l st).equity_curve =
      st.equity_curve ++ tail ∧ tail.length = l.length := by
  induction l generalizing st with
  | nil => exact ⟨[], by simp [runModel]⟩
  | cons i rest ih =>
    obtain ⟨tail, htail, hlen⟩ := ih (stepModel df es xs ot ps st i)
    refine ⟨[(stepModel df es xs ot ps st i).balance] ++ tail, ?_, by simp [hlen]⟩
    rw [runModel, List.foldl_cons,
      show (List.foldl (stepModel df es xs ot ps)
        (stepModel df es xs ot ps st i) rest) =
        runModel df es xs ot ps rest (stepModel df es xs ot ps st i) from rfl,
      htail, stepModel_equity]
    simp

/-!
Claim theorems.
-/

/-- Claim C1: in the trade simulator, at most one state transition occurs
per bar.  If both entry and exit signals are true on a bar while the state
is FLAT, an entry is opened and the exit signal has no effect; if both are
true while LONG, the exit takes effect and no re-entry occurs on that bar.
The entry signal is consulted only in the FLAT state and the exit signal
only in the LONG state: each branch below is insensitive to the other
signal's value. -/
theorem C1_same_bar_precedence (df : List Bar) (es xs : List Bool)
    (ot : String) (ps : ℚ) (st : ExecState) (i : ℕ)
    (hdf : i < df.length) (hes : es.length = df.length)
    (hxs : xs.length = df.length) :
    ∃ st', execBar df es xs ot ps st i = Except.ok st' ∧
      st'.trades.length ≤ st.trades.length + 1 ∧
      (st.in_position = false → es.getD i false = true →
        st'.in_position = true ∧ st'.balance = st.balance ∧
        ∃ p t, st'.trades = st.trades ++ [TradeRec.entry p t]) ∧
      (st.in_position = false → es.getD i false = false →
        st'.in_position = false ∧ st'.trades = st.trades) ∧
      (st.in_position = true → xs.getD i false = true →
        st'.in_position = false ∧
        ∃ p t pnl b, st'.trades = st.trades ++ [TradeRec.exit p t pnl b]) ∧
      (st.in_position = true → xs.getD i false = false →
        st'.in_position = true ∧ st'.trades = st.trades) := by
  refine ⟨stepModel df es xs ot ps st i,
    execBar_eq_stepModel df es xs ot ps st i hdf
      (fun _ => by omega) (fun _ => by omega), ?_, ?_, ?_, ?_, ?_⟩
  · unfold stepModel
    cases hp : st.in_position with
    | false => cases hev : es.getD i false <;> simp [hp, hev]
    | true => cases hxv : xs.getD i false <;> simp [hp, hxv]
  · intro hp hev
    simp only [List.getD_eq_getElem?_getD] at hev
    unfold stepModel
    exact ⟨by simp [hp, hev], by simp [hp, hev], stepPrice df ot i,
      (df.getD i default).timestamp, by simp [hp, hev]⟩
  · intro hp hev
    simp only [List.getD_eq_getElem?_getD] at hev
    unfold stepModel
    exact ⟨by simp [hp, hev], by simp [hp, hev]⟩
  · intro hp hxv
    simp only [List.getD_eq_getElem?_getD] at hxv
    unfold stepModel
    exact ⟨by simp [hp, hxv], stepPrice df ot i, (df.getD i default).timestamp,
      (stepPrice df ot i - st.entry_price) * ps,
      st.balance + (stepPrice df ot i - st.entry_price) * ps, by simp [hp, hxv]⟩
  · intro hp hxv
    simp only [List.getD_eq_getElem?_getD] at hxv
    unfold stepModel
    exact ⟨by simp [hp, hxv], by simp [hp, hxv]⟩

/-- Witness for C1 at a concrete input: bar 0 of the Scenario A series with
both signals true while FLAT — the entry fires, the exit is ignored. -/
theorem C1_same_bar_precedence_witness :
    ((0 < dfScenarioA.length ∧ esA.length = dfScenarioA.length ∧
      xsBoth.length = dfScenarioA.length)) ∧
    (∃ st', execBar dfScenarioA esA xsBoth "market" 1 (initState 10000) 0 =
        Except.ok st' ∧
      st'.trades.length ≤ (initState 10000).trades.length + 1 ∧
      ((initState 10000).in_position = false → esA.getD 0 false = true →
        st'.in_position = true ∧ st'.balance = (initState 10000).balance ∧
        ∃ p t, st'.trades = (initState 10000).trades ++ [TradeRec.entry p t]) ∧
      ((initState 10000).in_position = false → esA.getD 0 false = false →
        st'.in_position = false ∧ st'.trades = (initState 10000).trades) ∧
      ((initState 10000).in_position = true → xsBoth.getD 0 false = true →
        st'.in_position = false ∧
        ∃ p t pnl b, st'.trades = (initState 10000).trades ++ [TradeRec.exit p t pnl b]) ∧
      ((initState 10000).in_position = true → xsBoth.getD 0 false = false →
        st'.in_position = true ∧ st'.trades = (initState 10000).trades)) :=
  ⟨⟨by decide, by decide, by decide⟩,
    C1_same_bar_precedence dfScenarioA esA xsBoth "market" 1 (initState 10000) 0
      (by decide) (by decide) (by decide)⟩

/-- Claim C7: when an entry or exit transition fires at bar `i`, the
recorded transaction price is the close of bar `i` for market orders, and
for limit orders the open of bar `i + 1` when it exists, falling back to
the close of bar `i` on the last bar. -/
theorem C7_transaction_price (df : List Bar) (es xs : List Bool)
    (ot : String) (ps : ℚ) (st : ExecState) (i : ℕ)
    (hdf : i < df.length) (hes : es.length = df.length)
    (hxs : xs.length = df.length)
    (_hot : ot = "market" ∨ ot = "limit") :
    ∃ st', execBar df es xs ot ps st i = Except.ok st' ∧
      (st.in_position = false → es.getD i false = true →
        ∃ p, st'.trades = st.trades ++ [TradeRec.entry p (df.getD i default).timestamp] ∧
          (ot = "market" → p = (df.getD i default).close) ∧
          (ot = "limit" →
            p = if i + 1 < df.length then (df.getD (i + 1) default).openP
                else (df.getD i default).close)) ∧
      (st.in_position = true → xs.getD i false = true →
        ∃ p pnl b, st'.trades = st.trades ++
            [TradeRec.exit p (df.getD i default).timestamp pnl b] ∧
          (ot = "market" → p = (df.getD i default).close) ∧
          (ot = "limit" →
            p = if i + 1 < df.length then (df.getD (i + 1) default).openP
                else (df.getD i default).close)) := by
  refine ⟨stepModel df es xs ot ps st i,
    execBar_eq_stepModel df es xs ot ps st i hdf
      (fun _ => by omega) (fun _ => by omega), ?_, ?_⟩
  · intro hp hev
    simp only [List.getD_eq_getElem?_getD] at hev
    refine ⟨stepPrice df ot i, by unfold stepModel; simp [hp, hev], ?_, ?_⟩
    · intro hm; simp [stepPrice, hm]
    · intro hm
      have : ¬ (ot = "market") := by simp [hm]
      simp [stepPrice, this]
  · intro hp hxv
    simp only [List.getD_eq_getElem?_getD] at hxv
    refine ⟨stepPrice df ot i, (stepPrice df ot i - st.entry_price) * ps,
      st.balance + (stepPrice df ot i - st.entry_price) * ps,
      by unfold stepModel; simp [hp, hxv], ?_, ?_⟩
    · intro hm; simp [stepPrice, hm]
    · intro hm
      have : ¬ (ot = "market") := by simp [hm]
      simp [stepPrice, this]

/-- Witness for C7 at a concrete input: a limit-order exit on the last bar
of the Scenario A series (state LONG, exit signal true), exercising the
fall-back to the current close. -/
theorem C7_transaction_price_witness :
    (2 < dfScenarioA.length ∧ esA.length = dfScenarioA.length ∧
      xsBoth.length = dfScenarioA.length ∧
      (("limit" : String) = "market" ∨ ("limit" : String) = "limit")) ∧
    (∃ st', execBar dfScenarioA esA xsBoth "limit" 1
        { initState 10000 with in_position := true, entry_price := 100 } 2 =
        Except.ok st' ∧
      ({ initState 10000 with in_position := true, entry_price := 100 }.in_position = false →
        esA.getD 2 false = true →
        ∃ p, st'.trades = { initState 10000 with in_position := true, entry_price := 100 }.trades ++
            [TradeRec.entry p (dfScenarioA.getD 2 default).timestamp] ∧
          (("limit" : String) = "market" → p = (dfScenarioA.getD 2 default).close) ∧
          (("limit" : String) = "limit" →
            p = if 2 + 1 < dfScenarioA.length then (dfScenarioA.getD (2 + 1) default).openP
                else (dfScenarioA.getD 2 default).close)) ∧
      ({ initState 10000 with in_position := true, entry_price := 100 }.in_position = true →
        xsBoth.getD 2 false = true →
        ∃ p pnl b, st'.trades = { initState 10000 with in_position := true, entry_price := 100 }.trades ++
            [TradeRec.exit p (dfScenarioA.getD 2 default).timestamp pnl b] ∧
          (("limit" : String) = "market" → p = (dfScenarioA.getD 2 default).close) ∧
          (("limit" : String) = "limit" →
            p = if 2 + 1 < dfScenarioA.length then (dfScenarioA.getD (2 + 1) default).openP
                else (dfScenarioA.getD 2 default).close))) :=
  ⟨⟨by decide, by decide, by decide, Or.inr rfl⟩,
    C7_transaction_price dfScenarioA esA xsBoth "limit" 1
      { initState 10000 with in_position := true, entry_price := 100 } 2
      (by decide) (by decide) (by decide) (Or.inr rfl)⟩

/-- Claim C8 (Scenario A): on the 3-bar series with closes 100, 105, 95,
entry signal `[true, false, false]`, exit signal `[false, false, true]`,
market orders, initial balance 10000 and position size 1, the ledger is
exactly an entry at 100 on bar 0 and an exit at 95 on bar 2 with pnl −5,
and the summary has final balance 9995, one completed trade and win rate 0.
(The asserted fields do not depend on the square-root and power stand-ins
`idQ` and `fstPow`.) -/
theorem C8_scenario_a :
    (execute_strategy idQ fstPow dfScenarioA [true, false, false]
        [false, false, true] "market" 10000 1 none).map
      (fun r => (r.trades, r.summary.final_balance, r.summary.total_trades,
        r.summary.win_rate)) =
    Except.ok ([TradeRec.entry 100 0, TradeRec.exit 95 2 (-5) 9995],
      (9995 : ℚ), 1, (0 : ℚ)) := by
  norm_num [execute_strategy, execFinalState, runIdx, execBar, iloc, dfScenarioA,
    initState, isExit, pnlField, List.range_succ, Except.map, Except.bind]

theorem stepModel_balRel (df : List Bar) (es xs : List Bool) (ot : String)
    (ps : ℚ) (d : ℚ) (st1 st2 : ExecState) (i : ℕ) (h : BalRel d st1 st2) :
    BalRel d (stepModel df es xs ot ps st1 i) (stepModel df es xs ot ps st2 i) := by
  obtain ⟨hpos, hep, het, htr, hbal, heq, hme, hdd⟩ := h
  unfold stepModel
  have hmax : ∀ a b : ℚ, (d + a) ⊔ (d + b) = d + a ⊔ b := fun a b =>
    max_add_add_left d a b
  have hsub : ∀ a b : ℚ, d + a - (d + b) = a - b := fun a b => by ring
  cases hp : st1.in_position with
  | false =>
    cases hev : es.getD i false with
    | true =>
      refine ⟨?_, ?_, ?_, ?_, ?_, ?_, ?_, ?_⟩ <;>
        simp [hp, hev, hpos, hep, het, htr, hbal, heq, hme, hdd, scrubBalance,
          hmax, hsub, add_comm, add_assoc, add_left_comm]
    | false =>
      refine ⟨?_, ?_, ?_, ?_, ?_, ?_, ?_, ?_⟩ <;>
        simp [hp, hev, hpos, hep, het, htr, hbal, heq, hme, hdd,
          hmax, hsub, add_comm, add_assoc, add_left_comm]
  | true =>
    cases hxv : xs.getD i false with
    | true =>
      refine ⟨?_, ?_, ?_, ?_, ?_, ?_, ?_, ?_⟩ <;>
        simp [hp, hxv, hpos, hep, het, htr, hbal, heq, hme, hdd, scrubBalance,
          hmax, hsub, add_comm, add_assoc, add_left_comm]
    | false =>
      refine ⟨?_, ?_, ?_, ?_, ?_, ?_, ?_, ?_⟩ <;>
        simp [hp, hxv, hpos, hep, het, htr, hbal, heq, hme, hdd,
          hmax, hsub, add_comm, add_assoc, add_left_comm]

theorem execBar_balRel (df : List Bar) (es xs : List Bool) (ot : String)
    (ps : ℚ) (d : ℚ) (st1 st2 : ExecState) (i : ℕ) (h : BalRel d st1 st2) :
    (∃ e, execBar df es xs ot ps st1 i = Except.error e ∧
      execBar df es xs ot ps st2 i = Except.error e) ∨
    (∃ st1' st2', execBar df es xs ot ps st1 i = Except.ok st1' ∧
      execBar df es xs ot ps st2 i = Except.ok st2' ∧ BalRel d st1' st2') := by
  have hpos := h.1
  by_cases hdf : i < df.length
  · cases hp : st1.in_position with
    | false =>
      by_cases hes : i < es.length
      · right
        exact ⟨_, _,
          execBar_eq_stepModel df es xs ot ps st1 i hdf (fun _ => hes)
            (fun hc => absurd (hp ▸ hc) (by simp)),
          execBar_eq_stepModel df es xs ot ps st2 i hdf (fun _ => hes)
            (fun hc => absurd (hp ▸ hpos ▸ hc) (by simp [hpos, hp])),
          stepModel_balRel df es xs ot ps d st1 st2 i h⟩
      · left
        exact ⟨PyExc.indexError,
          execBar_entry_oob df es xs ot ps st1 i hdf hp (by omega),
          execBar_entry_oob df es xs ot ps st2 i hdf (hpos.trans hp) (by omega)⟩
    | true =>
      by_cases hxs : i < xs.length
      · right
        exact ⟨_, _,
          execBar_eq_stepModel df es xs ot ps st1 i hdf
            (fun hc => absurd (hp ▸ hc) (by simp)) (fun _ => hxs),
          execBar_eq_stepModel df es xs ot ps st2 i hdf
            (fun hc => absurd (hp ▸ hpos ▸ hc) (by simp [hpos, hp])) (fun _ => hxs),
          stepModel_balRel df es xs ot ps d st1 st2 i h⟩
      · left
        exact ⟨PyExc.indexError,
          execBar_exit_oob df es xs ot ps st1 i hdf hp (by omega),
          execBar_exit_oob df es xs ot ps st2 i hdf (hpos.trans hp) (by omega)⟩
  · left
    exact ⟨PyExc.indexError,
      execBar_df_oob df es xs ot ps st1 i (by omega),
      execBar_df_oob df es xs ot ps st2 i (by omega)⟩

theorem runIdx_balRel (df : List Bar) (es xs : List Bool) (ot : String)
    (ps : ℚ) (d : ℚ) (l : List ℕ) (st1 st2 : ExecState) (h : BalRel d st1 st2) :
    (∃ e, runIdx df es xs ot ps l st1 = Except.error e ∧
      runIdx df es xs ot ps l st2 = Except.error e) ∨
    (∃ st1' st2', runIdx df es xs ot ps l st1 = Except.ok st1' ∧
      runIdx df es xs ot ps l st2 = Except.ok st2' ∧ BalRel d st1' st2') := by
  induction l generalizing st1 st2 with
  | nil => exact Or.inr ⟨st1, st2, rfl, rfl, h⟩
  | cons i rest ih =>
    rcases execBar_balRel df es xs ot ps d st1 st2 i h with
      ⟨e, h1, h2⟩ | ⟨st1', st2', h1, h2, hrel⟩
    · left; exact ⟨e, by simp [runIdx, h1], by simp [runIdx, h2]⟩
    · rw [runIdx, runIdx, h1, h2]
      simpa using ih st1' st2' hrel

/-- Counterexample to claim C10: with benchmark `[1, 2, 3]` over a two-bar
series with all-false signals, the run with initial balance 0 raises
`ValueError` inside `calculate_beta` — its equity curve is `[0, 0]`, every
return is `0/0 = nan`, the dropna'd returns series is empty, and the `[-0:]`
trim keeps the whole benchmark, so `np.cov` sees lengths 0 and 3 — while the
run with initial balance 100 completes (one return, `min_len = 1`, beta
guard returns 0.0).  Two runs differing only in the initial balance are
observably different, so the claimed ledger equality fails with a benchmark
supplied. -/
theorem C10_counterexample :
    (execute_strategy idQ fstPow df2Bars [false, false] [false, false]
        "market" 0 1 (some bench3)).map (fun r => r.trades.map scrubBalance) =
      Except.error PyExc.valueError ∧
    isOkE (execute_strategy idQ fstPow df2Bars [false, false] [false, false]
      "market" 100 1 (some bench3)) = true ∧
    (execute_strategy idQ fstPow df2Bars [false, false] [false, false]
        "market" 0 1 (some bench3)).map (fun r => r.trades.map scrubBalance) ≠
      (execute_strategy idQ fstPow df2Bars [false, false] [false, false]
        "market" 100 1 (some bench3)).map
        (fun r => r.trades.map scrubBalance) := by
  have h1 : (execute_strategy idQ fstPow df2Bars [false, false] [false, false]
      "market" 0 1 (some bench3)).map (fun r => r.trades.map scrubBalance) =
      Except.error PyExc.valueError := by rfl
  have h2 : isOkE (execute_strategy idQ fstPow df2Bars [false, false]
      [false, false] "market" 100 1 (some bench3)) = true := by
    norm_num [execute_strategy, execFinalState, runIdx, execBar, iloc, df2Bars,
      initState, Except.map, Except.bind, isOkE, pctChange, pctChangeAux,
      dropna, PFloat.div, PFloat.sub, PFloat.pyEq, calculate_beta, pySliceLast,
      npCov, npVar, bench3, List.range_succ, qSum]
  refine ⟨h1, h2, ?_⟩
  intro h
  rw [h1] at h
  cases hr : execute_strategy idQ fstPow df2Bars [false, false] [false, false]
      "market" 100 1 (some bench3) with
  | error e => rw [hr] at h2; simp [isOkE] at h2
  | ok r => rw [hr] at h; simp [Except.map] at h

/-- Claim C10 as amended (the simulation itself imposes no solvency
constraint): when no benchmark series is supplied, two runs that differ only
in the initial balance produce ledgers that are identical up to the balance
field of exit records (same kinds, prices, timestamps and pnl values), and
equity curves that agree after subtracting the respective initial balances —
for every series, signal pair, order type and position size, including runs
that end in an exception; the equity-curve statement about the simulation
loop (`execFinalState`) holds unconditionally, since the loop never consults
the benchmark.  With a benchmark supplied the claim fails (see the
counterexample): the balance-dependent returns series reaches
`calculate_beta`, whose `[-0:]` no-op trim lets `np.cov` raise `ValueError`
for one initial balance and not the other. -/
theorem C10_no_solvency_constraint (s : ℚ → ℚ) (powf : ℚ → ℚ → ℚ)
    (df : List Bar) (es xs : List Bool) (ot : String) (ps : ℚ)
    (b1 b2 : ℚ) :
    (execute_strategy s powf df es xs ot b1 ps none).map
        (fun r => r.trades.map scrubBalance) =
      (execute_strategy s powf df es xs ot b2 ps none).map
        (fun r => r.trades.map scrubBalance) ∧
    (execFinalState df es xs ot b1 ps).map
        (fun st => st.equity_curve.map (fun q => q - b1)) =
      (execFinalState df es xs ot b2 ps).map
        (fun st => st.equity_curve.map (fun q => q - b2)) := by
  have hinit : BalRel (b2 - b1) (initState b1) (initState b2) := by
    refine ⟨rfl, rfl, rfl, rfl, by simp [initState], by simp [initState],
      by simp [initState], rfl⟩
  rcases runIdx_balRel df es xs ot ps (b2 - b1) (List.range df.length)
      (initState b1) (initState b2) hinit with
    ⟨e, h1, h2⟩ | ⟨st1', st2', h1, h2, hrel⟩
  · constructor <;>
      simp [execute_strategy, execFinalState, h1, h2, Except.map, Except.bind]
  · obtain ⟨_, _, _, htr, _, heq, _, _⟩ := hrel
    constructor
    · simp [execute_strategy, execFinalState, h1, h2, Except.map, Except.bind, htr]
    · simp only [execFinalState, h1, h2, Except.map, heq]
      congr 1
      rw [List.map_map]
      apply List.map_congr_left
      intro a _
      simp
      ring

theorem getD_append_left {α : Type} (l1 l2 : List α) (d : α) (i : ℕ)
    (h : i < l1.length) : (l1 ++ l2).getD i d = l1.getD i d := by
  simp [List.getD_eq_getElem?_getD, List.getElem?_append, h]

theorem getD_append_length {α : Type} (l1 : List α) (x d : α) :
    (l1 ++ [x]).getD l1.length d = x := by
  simp [List.getD_eq_getElem?_getD, List.getElem?_append_right (le_refl l1.length)]

theorem runModel_append (df : List Bar) (es xs : List Bool) (ot : String)
    (ps : ℚ) (l1 l2 : List ℕ) (st : ExecState) :
    runModel df es xs ot ps (l1 ++ l2) st =
      runModel df es xs ot ps l2 (runModel df es xs ot ps l1 st) := by
  simp [runModel, List.foldl_append]

theorem runModel_range_succ (df : List Bar) (es xs : List Bool) (ot : String)
    (ps : ℚ) (i : ℕ) (st : ExecState) :
    runModel df es xs ot ps (List.range (i + 1)) st =
      stepModel df es xs ot ps (runModel df es xs ot ps (List.range i) st) i := by
  rw [List.range_succ, runModel_append]
  rfl

/-- Claim C9: opening a position deducts nothing from the balance; the
balance changes only when an exit fires, so the equity-curve value at bar
`i` equals the initial balance plus the sum of the pnl fields of the exit
records produced through bar `i` (the ledger after processing bars
`0 … i`). -/
theorem C9_entry_is_balance_frame (df : List Bar) (es xs : List Bool)
    (ot : String) (ib ps : ℚ) (st : ExecState) (i : ℕ)
    (hes : es.length = df.length) (hxs : xs.length = df.length)
    (hi : i < df.length) :
    (st.in_position = false → es.getD i false = true →
      ∃ st', execBar df es xs ot ps st i = Except.ok st' ∧
        st'.balance = st.balance) ∧
    (∃ stF, execFinalState df es xs ot ib ps = Except.ok stF ∧
      stF.equity_curve.length = df.length ∧
      ∃ stP, runIdx df es xs ot ps (List.range (i + 1)) (initState ib) =
          Except.ok stP ∧
        stF.equity_curve.getD i 0 = ib + exitPnlSum stP.trades ∧
        stP.balance = ib + exitPnlSum stP.trades) := by
  have hbounds : ∀ l : List ℕ, (∀ j ∈ l, j < df.length) →
      ∀ j ∈ l, j < df.length ∧ j < es.length ∧ j < xs.length := by
    intro l hl j hj
    exact ⟨hl j hj, by rw [hes]; exact hl j hj, by rw [hxs]; exact hl j hj⟩
  constructor
  · intro hp hev
    simp only [List.getD_eq_getElem?_getD] at hev
    refine ⟨stepModel df es xs ot ps st i,
      execBar_eq_stepModel df es xs ot ps st i hi
        (fun _ => by omega) (fun _ => by omega), ?_⟩
    unfold stepModel
    simp [hp, hev]
  · have hrangeF : ∀ j ∈ List.range df.length, j < df.length := by
      intro j hj; exact List.mem_range.mp hj
    have hrangeP : ∀ j ∈ List.range (i + 1), j < df.length := by
      intro j hj; have := List.mem_range.mp hj; omega
    refine ⟨runModel df es xs ot ps (List.range df.length) (initState ib),
      runIdx_eq_runModel df es xs ot ps _ _ (hbounds _ hrangeF), ?_,
      runModel df es xs ot ps (List.range (i + 1)) (initState ib),
      runIdx_eq_runModel df es xs ot ps _ _ (hbounds _ hrangeP), ?_, ?_⟩
    · obtain ⟨tail, htail, hlen⟩ :=
        runModel_equity_prefix df es xs ot ps (List.range df.length) (initState ib)
      rw [htail]
      simp [initState, hlen]
    · obtain ⟨k, hk⟩ : ∃ k, df.length = (i + 1) + k := ⟨df.length - (i + 1), by omega⟩
      have hsplit : runModel df es xs ot ps (List.range df.length) (initState ib) =
          runModel df es xs ot ps ((List.range k).map ((i + 1) + ·))
            (runModel df es xs ot ps (List.range (i + 1)) (initState ib)) := by
        rw [hk, List.range_add, runModel_append]
      obtain ⟨tailF, htailF, _⟩ := runModel_equity_prefix df es xs ot ps
        ((List.range k).map ((i + 1) + ·))
        (runModel df es xs ot ps (List.range (i + 1)) (initState ib))
      obtain ⟨tailP, htailP, hlenP⟩ :=
        runModel_equity_prefix df es xs ot ps (List.range i) (initState ib)
      have hPsucc := runModel_range_succ df es xs ot ps i (initState ib)
      have hPeq : (runModel df es xs ot ps (List.range (i + 1))
          (initState ib)).equity_curve =
          (runModel df es xs ot ps (List.range i) (initState ib)).equity_curve ++
          [(runModel df es xs ot ps (List.range (i + 1)) (initState ib)).balance] := by
        rw [hPsucc, stepModel_equity, ← hPsucc]
      have hbalP : (runModel df es xs ot ps (List.range (i + 1))
          (initState ib)).balance = ib + exitPnlSum (runModel df es xs ot ps
          (List.range (i + 1)) (initState ib)).trades := by
        have hinv := runModel_balance_identity df es xs ot ps (List.range (i + 1))
          (initState ib)
        have h0 : (initState ib).balance - exitPnlSum (initState ib).trades = ib := by
          simp [initState, exitPnlSum, qSum]
        rw [h0] at hinv
        linarith
      have hlenPi : ((runModel df es xs ot ps (List.range i)
          (initState ib)).equity_curve).length = i := by
        rw [htailP]; simp [initState, hlenP]
      have hmid := getD_append_length
        ((runModel df es xs ot ps (List.range i) (initState ib)).equity_curve)
        ((runModel df es xs ot ps (List.range (i + 1)) (initState ib)).balance) 0
      rw [hlenPi] at hmid
      rw [hsplit, htailF, hPeq, getD_append_left _ _ _ _ (by simp [hlenPi]), hmid]
      exact hbalP
    · have hinv := runModel_balance_identity df es xs ot ps (List.range (i + 1))
        (initState ib)
      have h0 : (initState ib).balance - exitPnlSum (initState ib).trades = ib := by
        simp [initState, exitPnlSum, qSum]
      rw [h0] at hinv
      linarith

/-- Witness for C9 at a concrete input: bar 2 of the Scenario A run (the
exit bar), with the FLAT state taken as the initial state. -/
theorem C9_entry_is_balance_frame_witness :
    (esA.length = dfScenarioA.length ∧ xsBoth.length = dfScenarioA.length ∧
      2 < dfScenarioA.length) ∧
    (((initState 10000).in_position = false → esA.getD 2 false = true →
      ∃ st', execBar dfScenarioA esA xsBoth "market" 1 (initState 10000) 2 =
          Except.ok st' ∧ st'.balance = (initState 10000).balance) ∧
    (∃ stF, execFinalState dfScenarioA esA xsBoth "market" 10000 1 =
        Except.ok stF ∧
      stF.equity_curve.length = dfScenarioA.length ∧
      ∃ stP, runIdx dfScenarioA esA xsBoth "market" 1 (List.range (2 + 1))
          (initState 10000) = Except.ok stP ∧
        stF.equity_curve.getD 2 0 = 10000 + exitPnlSum stP.trades ∧
        stP.balance = 10000 + exitPnlSum stP.trades)) :=
  ⟨⟨by decide, by decide, by decide⟩,
    C9_entry_is_balance_frame dfScenarioA esA xsBoth "market" 10000 1
      (initState 10000) 2 (by decide) (by decide) (by decide)⟩

/-- Counterexample to claim C4: a misaligned signal pair (entry signal of
length 2 against a 1-bar series) does not raise `SignalAlignmentError` — the
run completes without any exception.  No `SignalAlignmentError` class exists
in the repository and `execute_strategy` performs no signal validation. -/
theorem C4_counterexample :
    isOkE (execute_strategy idQ fstPow dfOneBar [false, false] [false]
      "market" 10000 1 none) = true ∧
    execute_strategy idQ fstPow dfOneBar [false, false] [false]
      "market" 10000 1 none ≠ Except.error PyExc.signalAlignmentError := by
  constructor
  · rfl
  · intro h
    have hok : isOkE (execute_strategy idQ fstPow dfOneBar [false, false]
        [false] "market" 10000 1 none) = true := rfl
    rw [h] at hok
    simp [isOkE] at hok

/-- Claim C4 as amended: the simulator performs no signal validation.
With no benchmark series supplied, signals at least as long as the series
(of any boolean content) are accepted silently — the run always succeeds —
and a signal too short for an index the loop actually reads raises a plain
`IndexError` from positional indexing, as in the concrete one-bar run with
empty signals below.  No `SignalAlignmentError` is ever raised.  (A supplied
benchmark can still abort an otherwise well-formed run with `ValueError`
from `calculate_beta`; see the C10 counterexample.) -/
theorem C4_amended_no_signal_validation (s : ℚ → ℚ) (powf : ℚ → ℚ → ℚ)
    (df : List Bar) (es xs : List Bool) (ot : String) (ib ps : ℚ)
    (hes : df.length ≤ es.length) (hxs : df.length ≤ xs.length) :
    isOkE (execute_strategy s powf df es xs ot ib ps none) = true ∧
    execute_strategy idQ fstPow dfOneBar [] [] "market" 10000 1 none =
      Except.error PyExc.indexError := by
  constructor
  · have hb : ∀ j ∈ List.range df.length,
        j < df.length ∧ j < es.length ∧ j < xs.length := by
      intro j hj
      have := List.mem_range.mp hj
      exact ⟨this, by omega, by omega⟩
    rw [execute_strategy, execFinalState,
      runIdx_eq_runModel df es xs ot ps _ _ hb]
    rfl
  · rfl

/-- Witness for C4 as amended, at a concrete input: a 1-bar series with an
entry signal of length 2 and an exit signal of length 1. -/
theorem C4_amended_witness :
    (dfOneBar.length ≤ ([false, false] : List Bool).length ∧
      dfOneBar.length ≤ ([false] : List Bool).length) ∧
    (isOkE (execute_strategy idQ fstPow dfOneBar [false, false] [false]
        "limit" 10000 1 none) = true ∧
      execute_strategy idQ fstPow dfOneBar [] [] "market" 10000 1 none =
        Except.error PyExc.indexError) :=
  ⟨⟨by decide, by decide⟩,
    C4_amended_no_signal_validation idQ fstPow dfOneBar [false, false] [false]
      "limit" 10000 1 (by decide) (by decide)⟩

/-- Counterexample to claim C2: on an empty series the run does succeed,
but the Sharpe field of the summary is `nan`, not 0.0 (pandas `std()` of an
empty series is `nan` and the `std == 0` guard is `False` on `nan`), so
"every metric in the summary equal to 0.0" fails. -/
theorem C2_counterexample :
    (execute_strategy idQ fstPow [] [] [] "market" 10000 1 none).map
      (fun r => r.summary.sharpe) = Except.ok PFloat.nan ∧
    PFloat.nan ≠ PFloat.val 0 := by
  refine ⟨rfl, ?_⟩
  intro h
  cases h

/-- Claim C2 as amended: running the simulator on an empty series is not an
error.  It returns an empty ledger, an equity curve of length zero, final
balance equal to the initial balance, zero completed trades, and total pnl,
win rate and CAGR equal to 0 — but the Sharpe, Sortino, Calmar, volatility,
VaR and max-drawdown fields are all `nan` (pandas reductions of an empty
series), not 0.0, and beta is `None`. -/
theorem C2_empty_series (s : ℚ → ℚ) (powf : ℚ → ℚ → ℚ) (ot : String)
    (b ps : ℚ) :
    execute_strategy s powf [] [] [] ot b ps none = Except.ok
      { trades := []
        summary :=
        { total_trades := 0
          total_pnl := 0
          win_rate := 0
          max_drawdown_dollar := PFloat.nan
          max_drawdown_pct := PFloat.nan
          cagr := 0
          sharpe := PFloat.nan
          sortino := PFloat.nan
          calmar := PFloat.nan
          volatility := PFloat.nan
          var_95 := PFloat.nan
          beta := none
          final_balance := b } } ∧
    (execFinalState [] [] [] ot b ps).map (fun st => st.equity_curve) =
      Except.ok [] := by
  constructor
  · simp [execute_strategy, execFinalState, runIdx, initState, Except.map,
      Except.bind, calculate_cagr, calculate_sharpe, calculate_sortino, calculate_calmar,
      calculate_volatility, calculate_var, calculate_max_drawdown,
      pctChange, dropna, pStd, sVar, pMean, pQuantile, pSeriesMax, pSeriesMin,
      qListMax, qListMin, cummax, isExit, pnlField, PFloat.div, PFloat.mul,
      PFloat.sub, PFloat.pabs, PFloat.pyEq]
  · rfl

theorem dropna_map_val (xs : List ℚ) : dropna (xs.map PFloat.val) = xs := by
  induction xs with
  | nil => rfl
  | cons x xs ih => simp [dropna, ih]

theorem pctChangeAux_const (c : ℚ) (hc : c ≠ 0) (m : ℕ) :
    pctChangeAux c (List.replicate m c) = List.replicate m (PFloat.val 0) := by
  induction m with
  | zero => rfl
  | succ m ih =>
    rw [List.replicate_succ, pctChangeAux, ih]
    simp [PFloat.div, PFloat.sub, hc, div_self hc, List.replicate_succ]

theorem dropna_replicate_val (m : ℕ) (q : ℚ) :
    dropna (List.replicate m (PFloat.val q)) = List.replicate m q := by
  induction m with
  | zero => rfl
  | succ m ih => simp [List.replicate_succ, dropna, ih]

theorem returnsOf_const (c : ℚ) (hc : c ≠ 0) (m : ℕ) :
    returnsOf (List.replicate (m + 1) c) = List.replicate m (PFloat.val 0) := by
  rw [returnsOf, List.replicate_succ, pctChange, pctChangeAux_const c hc m,
    dropna, dropna_replicate_val]
  exact List.map_replicate

theorem qSum_replicate_zero (m : ℕ) : qSum (List.replicate m (0 : ℚ)) = 0 := by
  induction m with
  | zero => rfl
  | succ m ih => simp [List.replicate_succ, qSum] at ih ⊢; exact ih

theorem sVar_replicate_zero (m : ℕ) (hm : 2 ≤ m) :
    sVar (List.replicate m (0 : ℚ)) = PFloat.val 0 := by
  rw [sVar, if_neg (by simp; omega)]
  simp [qSum_replicate_zero, List.map_replicate]

theorem pStd_replicate_zero (s : ℚ → ℚ) (hs : s 0 = 0) (m : ℕ) (hm : 2 ≤ m) :
    pStd s (List.replicate m (0 : ℚ)) = PFloat.val 0 := by
  rw [pStd, sVar_replicate_zero m hm]
  simp [hs]

theorem cummaxAux_const (c : ℚ) (m : ℕ) :
    cummaxAux c (List.replicate m c) = List.replicate m c := by
  induction m with
  | zero => rfl
  | succ m ih => simp [List.replicate_succ, cummaxAux, ih]

theorem cummax_replicate (c : ℚ) (m : ℕ) :
    cummax (List.replicate (m + 1) c) = List.replicate (m + 1) c := by
  rw [List.replicate_succ, cummax, cummaxAux_const, ← List.replicate_succ]

theorem foldl_min_zero (m : ℕ) :
    List.foldl min (0 : ℚ) (List.replicate m (0 : ℚ)) = 0 := by
  induction m with
  | zero => rfl
  | succ m ih => simpa [List.replicate_succ] using ih

theorem pQuantile_replicate_zero (m : ℕ) (hm : 1 ≤ m) (q : ℚ) :
    pQuantile (List.replicate m (0 : ℚ)) q = PFloat.val 0 := by
  have hmem : ∀ (j : ℕ) (d : ℚ), d = 0 →
      ((List.replicate m (0 : ℚ)).mergeSort
        (fun a b => decide (a ≤ b))).getD j d = 0 := by
    intro j d hd
    rw [List.getD_eq_getElem?_getD]
    cases hx : ((List.replicate m (0 : ℚ)).mergeSort
        (fun a b => decide (a ≤ b)))[j]? with
    | none => simp [hd]
    | some x =>
      obtain ⟨hlt, rfl⟩ := List.getElem?_eq_some.mp hx
      have hmemx := List.getElem_mem hlt
      rw [List.mem_mergeSort] at hmemx
      have := List.eq_of_mem_replicate hmemx
      simpa using this
  rw [pQuantile, if_neg (by simp; omega)]
  simp only []
  rw [hmem _ _ rfl, hmem _ _ rfl]
  norm_num

/-- Counterexample to claim C3: the Sharpe of a single-point equity curve is
`nan`, not 0.0 (the returns series is empty, its standard deviation is `nan`
and the guard `std == 0` is `False` on `nan`); likewise the Sortino of a
constant equity curve is `nan` (its downside subset is empty). -/
theorem C3_counterexample :
    calculate_sharpe idQ 0 252 (returnsOf [100]) = PFloat.nan ∧
    calculate_sortino idQ 0 252 (returnsOf [10000, 10000, 10000]) = PFloat.nan ∧
    PFloat.nan ≠ PFloat.val 0 := by
  refine ⟨rfl, ?_, by intro h; cases h⟩
  norm_num [calculate_sortino, returnsOf, pctChange, pctChangeAux, PFloat.div,
    PFloat.sub, PFloat.mul, dropna, pStd, sVar, pMean, PFloat.pyEq, qSum]

/-- Claim C3 as amended: none of the four metric functions ever throws
(each is a total function), but on degenerate inputs they return `nan`
rather than 0.0 in several cases.  For a constant equity curve of nonzero
level `c` with at least three points: Sharpe is 0.0, VaR is 0.0, Calmar is
0.0, but Sortino is `nan` (empty downside subset).  For a two-point constant
curve Sharpe is `nan` (single return observation, `std` is `nan`).  For a
single-point curve: Calmar is 0.0, while Sharpe, Sortino and VaR are `nan`
(empty returns series). -/
theorem C3_degenerate_metrics (s : ℚ → ℚ) (powf : ℚ → ℚ → ℚ) (c : ℚ) (n : ℕ)
    (hc : c ≠ 0) (hs : s 0 = 0) (hn : 3 ≤ n) :
    calculate_sharpe s 0 252 (returnsOf (List.replicate n c)) = PFloat.val 0 ∧
    calculate_sharpe s 0 252 (returnsOf (List.replicate 2 c)) = PFloat.nan ∧
    calculate_sharpe s 0 252 (returnsOf [c]) = PFloat.nan ∧
    calculate_sortino s 0 252 (returnsOf (List.replicate n c)) = PFloat.nan ∧
    calculate_sortino s 0 252 (returnsOf [c]) = PFloat.nan ∧
    calculate_calmar powf 252 (List.replicate n c) = PFloat.val 0 ∧
    calculate_calmar powf 252 [c] = PFloat.val 0 ∧
    calculate_var (1 / 20) (returnsOf (List.replicate n c)) = PFloat.val 0 ∧
    calculate_var (1 / 20) (returnsOf [c]) = PFloat.nan := by
  obtain ⟨m, rfl⟩ : ∃ m, n = m + 1 := ⟨n - 1, by omega⟩
  have hm : 2 ≤ m := by omega
  have hret := returnsOf_const c hc m
  have hret2 := returnsOf_const c hc 1
  have hret1 : returnsOf [c] = [] := by
    rw [show [c] = List.replicate (0 + 1) c from rfl, returnsOf_const c hc 0]
    rfl
  refine ⟨?_, ?_, ?_, ?_, ?_, ?_, ?_, ?_, ?_⟩
  · rw [calculate_sharpe, hret, dropna_replicate_val,
      pStd_replicate_zero s hs m hm]
    simp [PFloat.pyEq]
  · rw [calculate_sharpe, hret2, dropna_replicate_val]
    simp [pStd, sVar, pMean, PFloat.pyEq, PFloat.div, PFloat.mul, qSum]
  · rw [calculate_sharpe, hret1]
    rfl
  · rw [calculate_sortino, hret, dropna_replicate_val]
    have hfil : (List.replicate m (0 : ℚ)).filter (fun r => decide (r < 0)) = [] := by
      simp [List.filter_replicate]
    rw [hfil]
    have hmean : pMean ((List.replicate m (0 : ℚ)).map (fun r => r - 0 / 252)) =
        PFloat.val 0 := by
      rw [List.map_replicate]
      norm_num [pMean, qSum_replicate_zero]
      omega
    simp [pStd, sVar, PFloat.pyEq, hmean, PFloat.div, PFloat.mul]
  · rw [calculate_sortino, hret1]
    rfl
  · rw [calculate_calmar, cummax_replicate]
    have hzip : (List.replicate (m + 1) c).zip (List.replicate (m + 1) c) =
        List.replicate (m + 1) (c, c) := by
      simp [List.zip_replicate]
    rw [hzip, List.map_replicate]
    have hdiv : ((PFloat.val c).div (PFloat.val c)).sub (PFloat.val 1) =
        PFloat.val 0 := by
      simp [PFloat.div, PFloat.sub, hc, div_self hc]
    rw [hdiv]
    have hmin : pSeriesMin (List.replicate (m + 1) (PFloat.val 0)) =
        PFloat.val 0 := by
      rw [pSeriesMin, dropna_replicate_val, List.replicate_succ, qListMin,
        foldl_min_zero]
    rw [hmin]
    simp [PFloat.pyEq]
  · rw [calculate_calmar]
    have hzip : ([c].zip (cummax [c])) = [(c, c)] := rfl
    rw [hzip]
    have hdiv : ((PFloat.val c).div (PFloat.val c)).sub (PFloat.val 1) =
        PFloat.val 0 := by
      simp [PFloat.div, PFloat.sub, hc, div_self hc]
    simp only [List.map_cons, List.map_nil, hdiv]
    have hmin : pSeriesMin [PFloat.val 0] = PFloat.val 0 := rfl
    rw [hmin]
    simp [PFloat.pyEq]
  · rw [calculate_var, hret, dropna_replicate_val,
      pQuantile_replicate_zero m (by omega) (1 / 20)]
    simp [PFloat.pabs, PFloat.mul]
  · rw [calculate_var, hret1]
    rfl

/-- Witness for C3 as amended: the constant curve at level 10000 with three
points, with concrete square-root and power stand-ins. -/
theorem C3_degenerate_metrics_witness :
    ((10000 : ℚ) ≠ 0 ∧ idQ 0 = 0 ∧ 3 ≤ 3) ∧
    (calculate_sharpe idQ 0 252 (returnsOf (List.replicate 3 (10000 : ℚ))) = PFloat.val 0 ∧
    calculate_sharpe idQ 0 252 (returnsOf (List.replicate 2 (10000 : ℚ))) = PFloat.nan ∧
    calculate_sharpe idQ 0 252 (returnsOf [(10000 : ℚ)]) = PFloat.nan ∧
    calculate_sortino idQ 0 252 (returnsOf (List.replicate 3 (10000 : ℚ))) = PFloat.nan ∧
    calculate_sortino idQ 0 252 (returnsOf [(10000 : ℚ)]) = PFloat.nan ∧
    calculate_calmar fstPow 252 (List.replicate 3 (10000 : ℚ)) = PFloat.val 0 ∧
    calculate_calmar fstPow 252 [(10000 : ℚ)] = PFloat.val 0 ∧
    calculate_var (1 / 20) (returnsOf (List.replicate 3 (10000 : ℚ))) = PFloat.val 0 ∧
    calculate_var (1 / 20) (returnsOf [(10000 : ℚ)]) = PFloat.nan) :=
  ⟨⟨by norm_num, rfl, by decide⟩,
    C3_degenerate_metrics idQ fstPow 10000 3 (by norm_num) rfl (by decide)⟩

/-- Counterexample to claim C5: evaluating `"COND1 AND COND3"` with only
`COND1` and `COND2` defined raises Python's `NameError` for `COND3` — not an
`UnknownConditionError`.  No class of that name exists in the repository;
the name resolution happens inside Python's `eval` of the transformed logic
string. -/
theorem C5_counterexample :
    evaluate_logic frameFull [condEma, condClose] logicCond1And3 =
      Except.error (PyExc.nameError "COND3") ∧
    (Except.error (PyExc.nameError "COND3") : Except PyExc (List Bool)) ≠
      Except.error PyExc.unknownConditionError := by
  constructor
  · rfl
  · intro h
    simp at h

/-- Claim C5 as amended: the logic evaluator resolves every referenced
condition name against `local_dict` during evaluation (the substituted
`&`/`|` operators do not short-circuit): evaluation succeeds exactly when
every referenced name is defined, and otherwise it raises Python's
`NameError` carrying an undefined name — there is no dedicated
`UnknownConditionError` and no upfront validation pass. -/
theorem C5_unknown_condition_name (env : List (String × List Bool))
    (e : LogicE) :
    ((∀ name ∈ logicVars e, (env.find? (fun p => p.1 = name)).isSome) →
      ∃ bs, evalLogic env e = Except.ok bs) ∧
    (∀ err, evalLogic env e = Except.error err →
      ∃ name, err = PyExc.nameError name ∧ name ∈ logicVars e ∧
        env.find? (fun p => p.1 = name) = none) := by
  induction e with
  | lvar s =>
    constructor
    · intro h
      have hs := h s (by simp [logicVars])
      rw [evalLogic]
      cases hf : env.find? (fun p => p.1 = s) with
      | none => rw [hf] at hs; simp at hs
      | some p => simp [hf]
    · intro err herr
      rw [evalLogic] at herr
      cases hf : env.find? (fun p => p.1 = s) with
      | none =>
        rw [hf] at herr
        simp at herr
        exact ⟨s, herr.symm, by simp [logicVars], hf⟩
      | some p => rw [hf] at herr; simp at herr
  | land a b iha ihb =>
    constructor
    · intro h
      obtain ⟨xa, hxa⟩ := iha.1 (fun name hn => h name (by simp [logicVars, hn]))
      obtain ⟨xb, hxb⟩ := ihb.1 (fun name hn => h name (by simp [logicVars, hn]))
      exact ⟨_, by rw [evalLogic, hxa, hxb]; rfl⟩
    · intro err herr
      rw [evalLogic] at herr
      cases ha : evalLogic env a with
      | error ea =>
        rw [ha] at herr
        simp at herr
        obtain ⟨name, h1, h2, h3⟩ := iha.2 ea ha
        exact ⟨name, herr ▸ h1, by simp [logicVars, h2], h3⟩
      | ok xa =>
        rw [ha] at herr
        cases hb : evalLogic env b with
        | error eb =>
          rw [hb] at herr
          simp at herr
          obtain ⟨name, h1, h2, h3⟩ := ihb.2 eb hb
          exact ⟨name, herr ▸ h1, by simp [logicVars, h2], h3⟩
        | ok xb => rw [hb] at herr; simp at herr
  | lor a b iha ihb =>
    constructor
    · intro h
      obtain ⟨xa, hxa⟩ := iha.1 (fun name hn => h name (by simp [logicVars, hn]))
      obtain ⟨xb, hxb⟩ := ihb.1 (fun name hn => h name (by simp [logicVars, hn]))
      exact ⟨_, by rw [evalLogic, hxa, hxb]; rfl⟩
    · intro err herr
      rw [evalLogic] at herr
      cases ha : evalLogic env a with
      | error ea =>
        rw [ha] at herr
        simp at herr
        obtain ⟨name, h1, h2, h3⟩ := iha.2 ea ha
        exact ⟨name, herr ▸ h1, by simp [logicVars, h2], h3⟩
      | ok xa =>
        rw [ha] at herr
        cases hb : evalLogic env b with
        | error eb =>
          rw [hb] at herr
          simp at herr
          obtain ⟨name, h1, h2, h3⟩ := ihb.2 eb hb
          exact ⟨name, herr ▸ h1, by simp [logicVars, h2], h3⟩
        | ok xb => rw [hb] at herr; simp at herr
  | lnot a iha =>
    constructor
    · intro h
      obtain ⟨xa, hxa⟩ := iha.1 (fun name hn => h name (by simp [logicVars, hn]))
      exact ⟨_, by rw [evalLogic, hxa]; rfl⟩
    · intro err herr
      rw [evalLogic] at herr
      cases ha : evalLogic env a with
      | error ea =>
        rw [ha] at herr
        simp at herr
        obtain ⟨name, h1, h2, h3⟩ := iha.2 ea ha
        exact ⟨name, herr ▸ h1, by simp [logicVars, h2], h3⟩
      | ok xa => rw [ha] at herr; simp at herr

/-- Witness for C5 as amended: both names of `"COND1 AND COND2"` are defined
in the concrete `local_dict`, and evaluation succeeds there. -/
theorem C5_unknown_condition_name_witness :
    (∀ name ∈ logicVars logicCond1And2,
      (envW.find? (fun p => p.1 = name)).isSome) ∧
    (∃ bs, evalLogic envW logicCond1And2 = Except.ok bs) :=
  ⟨by decide, (C5_unknown_condition_name envW logicCond1And2).1 (by decide)⟩

theorem parseAtom_ok_or_syntax (fuel : ℕ) (toks : List CondTok) :
    (∃ v, parseAtom fuel toks = Except.ok v) ∨
      parseAtom fuel toks = Except.error PyExc.syntaxError := by
  induction fuel generalizing toks with
  | zero =>
    cases toks with
    | nil => right; rfl
    | cons t rest => cases t <;> first | (left; exact ⟨_, rfl⟩) | (right; rfl)
  | succ fuel ih =>
    cases toks with
    | nil => right; rfl
    | cons t rest =>
      cases t <;> first
        | (left; exact ⟨_, rfl⟩)
        | (right; rfl)
        | skip
      case addTok =>
        rw [show parseAtom (fuel + 1) (CondTok.addTok :: rest) =
          parseAtom fuel rest from rfl]
        exact ih rest
      case subTok =>
        rcases ih rest with ⟨⟨a, r⟩, ha⟩ | ha
        · left
          exact ⟨(ArithE.binop ArithOp.sub (ArithE.lit 0) a, r),
            by simp [parseAtom, ha]⟩
        · right; simp [parseAtom, ha]

theorem parseMulChain_ok_or_syntax (fuel : ℕ) (acc : ArithE)
    (toks : List CondTok) :
    (∃ v, parseMulChain fuel acc toks = Except.ok v) ∨
      parseMulChain fuel acc toks = Except.error PyExc.syntaxError := by
  induction fuel generalizing acc toks with
  | zero =>
    left
    refine ⟨(acc, toks), ?_⟩
    cases toks with
    | nil => rfl
    | cons t rest => cases t <;> rfl
  | succ fuel ih =>
    cases toks with
    | nil => left; exact ⟨_, rfl⟩
    | cons t rest =>
      cases t <;> try (left; exact ⟨_, rfl⟩)
      all_goals
        rcases parseAtom_ok_or_syntax rest.length rest with ⟨⟨a, r⟩, ha⟩ | ha
        case _ => simpa [parseMulChain, ha] using ih _ r
        case _ => right; simp [parseMulChain, ha]

theorem parseMul_ok_or_syntax (fuel : ℕ) (toks : List CondTok) :
    (∃ v, parseMul fuel toks = Except.ok v) ∨
      parseMul fuel toks = Except.error PyExc.syntaxError := by
  rcases parseAtom_ok_or_syntax toks.length toks with ⟨⟨a, r⟩, ha⟩ | ha
  · simpa [parseMul, ha] using parseMulChain_ok_or_syntax fuel a r
  · right; simp [parseMul, ha]

theorem parseAddChain_ok_or_syntax (fuel : ℕ) (acc : ArithE)
    (toks : List CondTok) :
    (∃ v, parseAddChain fuel acc toks = Except.ok v) ∨
      parseAddChain fuel acc toks = Except.error PyExc.syntaxError := by
  induction fuel generalizing acc toks with
  | zero =>
    left
    refine ⟨(acc, toks), ?_⟩
    cases toks with
    | nil => rfl
    | cons t rest => cases t <;> rfl
  | succ fuel ih =>
    cases toks with
    | nil => left; exact ⟨_, rfl⟩
    | cons t rest =>
      cases t <;> try (left; exact ⟨_, rfl⟩)
      all_goals
        rcases parseMul_ok_or_syntax fuel rest with ⟨⟨a, r⟩, ha⟩ | ha
        case _ => simpa [parseAddChain, ha] using ih _ r
        case _ => right; simp [parseAddChain, ha]

theorem parseArith_ok_or_syntax (fuel : ℕ) (toks : List CondTok) :
    (∃ v, parseArith fuel toks = Except.ok v) ∨
      parseArith fuel toks = Except.error PyExc.syntaxError := by
  rcases parseMul_ok_or_syntax fuel toks with ⟨⟨a, r⟩, ha⟩ | ha
  · simpa [parseArith, ha] using parseAddChain_ok_or_syntax fuel a r
  · right; simp [parseArith, ha]

theorem parseChain_ok_or_syntax (fuel : ℕ) (toks : List CondTok) :
    (∃ ch, parseChain fuel toks = Except.ok ch) ∨
      parseChain fuel toks = Except.error PyExc.syntaxError := by
  induction fuel generalizing toks with
  | zero =>
    cases toks with
    | nil => left; exact ⟨[], rfl⟩
    | cons t rest => right; rfl
  | succ fuel ih =>
    cases toks with
    | nil => left; exact ⟨[], rfl⟩
    | cons t rest =>
      cases hc : cmpOfTok t with
      | none => right; simp [parseChain, hc]
      | some c =>
        rcases parseArith_ok_or_syntax rest.length rest with ⟨⟨a, r⟩, ha⟩ | ha
        · rcases ih r with ⟨ch, hch⟩ | hch
          · left; exact ⟨(c, a) :: ch, by simp [parseChain, hc, ha, hch]⟩
          · right; simp [parseChain, hc, ha, hch]
        · right; simp [parseChain, hc, ha]

theorem parseCond_ok_or_syntax (toks : List CondTok) :
    (∃ ce, parseCond toks = Except.ok ce) ∨
      parseCond toks = Except.error PyExc.syntaxError := by
  rcases parseArith_ok_or_syntax toks.length toks with ⟨⟨l, r1⟩, hl⟩ | hl
  · rcases parseChain_ok_or_syntax r1.length r1 with ⟨ch, hch⟩ | hch
    · left; exact ⟨⟨l, ch⟩, by simp [parseCond, hl, hch]⟩
    · right; simp [parseCond, hl, hch]
  · right; simp [parseCond, hl]

theorem evalArith_ok_or_missing (df : Frame) (e : ArithE) :
    (∃ v, evalArith df e = Except.ok v) ∨
      (∃ name, evalArith df e = Except.error (PyExc.undefinedVariableError name) ∧
        getCol df name = none) := by
  induction e with
  | col s =>
    cases hs : getCol df s with
    | none => right; exact ⟨s, by simp [evalArith, hs], hs⟩
    | some v => left; exact ⟨v, by simp [evalArith, hs]⟩
  | lit q => left; exact ⟨_, rfl⟩
  | binop op a b iha ihb =>
    rcases iha with ⟨va, hva⟩ | ⟨na, hna, hmissa⟩
    · rcases ihb with ⟨vb, hvb⟩ | ⟨nb, hnb, hmissb⟩
      · left; exact ⟨_, by rw [evalArith, hva, hvb]; rfl⟩
      · right; exact ⟨nb, by rw [evalArith, hva, hnb]; rfl, hmissb⟩
    · right; exact ⟨na, by rw [evalArith, hna]; rfl, hmissa⟩

theorem evalArith_missing (df : Frame) (e : ArithE) (name : String)
    (hmem : name ∈ arithCols e) (hmiss : getCol df name = none) :
    ∃ n2, evalArith df e = Except.error (PyExc.undefinedVariableError n2) ∧
      getCol df n2 = none := by
  induction e with
  | col s =>
    simp [arithCols] at hmem
    subst hmem
    exact ⟨name, by simp [evalArith, hmiss], hmiss⟩
  | lit q => simp [arithCols] at hmem
  | binop op a b iha ihb =>
    simp [arithCols] at hmem
    rcases hmem with hma | hmb
    · obtain ⟨n2, hn2, hm2⟩ := iha hma
      exact ⟨n2, by rw [evalArith, hn2]; rfl, hm2⟩
    · rcases evalArith_ok_or_missing df a with ⟨va, hva⟩ | ⟨na, hna, hmissa⟩
      · obtain ⟨n2, hn2, hm2⟩ := ihb hmb
        exact ⟨n2, by rw [evalArith, hva, hn2]; rfl, hm2⟩
      · exact ⟨na, by rw [evalArith, hna]; rfl, hmissa⟩

theorem evalChain_missing (df : Frame) (prev : List ℚ)
    (chain : List (CmpOp × ArithE)) (name : String)
    (hmem : name ∈ (chain.map (fun p => arithCols p.2)).flatten)
    (hmiss : getCol df name = none) :
    ∃ n2, evalChain df prev chain =
        Except.error (PyExc.undefinedVariableError n2) ∧
      getCol df n2 = none := by
  induction chain generalizing prev with
  | nil => simp at hmem
  | cons p rest ih =>
    obtain ⟨c, a⟩ := p
    simp only [List.map_cons, List.flatten_cons, List.mem_append] at hmem
    rcases hmem with hma | hmr
    · obtain ⟨n2, hn2, hm2⟩ := evalArith_missing df a name hma hmiss
      exact ⟨n2, by simp [evalChain, hn2], hm2⟩
    · rcases evalArith_ok_or_missing df a with ⟨v, hv⟩ | ⟨n, hn, hm⟩
      · obtain ⟨n2, hn2, hm2⟩ := ih v hmr
        exact ⟨n2, by simp [evalChain, hv, hn2], hm2⟩
      · exact ⟨n, by simp [evalChain, hn], hm⟩

/-- Counterexample to claim C6: evaluating `"ema_20 > ema_50"` over a
series lacking `ema_50` raises pandas' `UndefinedVariableError`, not an
`UnknownColumnError` (no class of that name exists in the repository). -/
theorem C6_counterexample :
    pandasEval frameNoEma50 condEma =
      Except.error (PyExc.undefinedVariableError "ema_50") ∧
    (Except.error (PyExc.undefinedVariableError "ema_50") :
        Except PyExc EvalResult) ≠
      Except.error PyExc.unknownColumnError := by
  constructor
  · rfl
  · intro h
    simp at h

/-- Claim C6 as amended: a condition referencing a column absent from the
series fails with pandas' `UndefinedVariableError` naming a missing column
(never a silent all-false default), and an expression the grammar cannot
parse fails with a plain syntax error — while the accepted grammar is wider
than the spec's closed comparison grammar: bare arithmetic such as
`"ema_20 + 1"` and chained comparisons such as `"0 < close < 3"` evaluate
without error.  The spec's `UnknownColumnError` and `ExpressionSyntaxError`
classes do not exist in the repository. -/
theorem C6_unknown_column (df : Frame) (toks toks2 : List CondTok)
    (ce : CondE) (name : String)
    (hparse : parseCond toks = Except.ok ce)
    (hmem : name ∈ condCols ce) (hmiss : getCol df name = none) :
    (∃ n2, pandasEval df toks =
        Except.error (PyExc.undefinedVariableError n2) ∧
      getCol df n2 = none) ∧
    ((∃ ce2, parseCond toks2 = Except.ok ce2) ∨
      pandasEval df toks2 = Except.error PyExc.syntaxError) ∧
    pandasEval frameNoEma50
        [CondTok.ident "ema_20", CondTok.addTok, CondTok.num 1] =
      Except.ok (EvalResult.numeric [2, 3]) ∧
    pandasEval frameNoEma50
        [CondTok.num 0, CondTok.ltTok, CondTok.ident "close",
          CondTok.ltTok, CondTok.num 3] =
      Except.ok (EvalResult.boolean [true, true]) := by
  refine ⟨?_, ?_, ?_, ?_⟩
  · simp only [condCols, List.mem_append] at hmem
    rcases hmem with hml | hmr
    · obtain ⟨n2, hn2, hm2⟩ := evalArith_missing df ce.lhs name hml hmiss
      refine ⟨n2, ?_, hm2⟩
      rw [pandasEval, hparse]
      simp [evalCondE, hn2]
    · rcases evalArith_ok_or_missing df ce.lhs with ⟨va, hva⟩ | ⟨na, hna, hmissa⟩
      · obtain ⟨n2, hn2, hm2⟩ := evalChain_missing df va ce.chain name hmr hmiss
        refine ⟨n2, ?_, hm2⟩
        rw [pandasEval, hparse]
        cases hch : ce.chain with
        | nil => rw [hch] at hmr; simp at hmr
        | cons p rest =>
          rw [hch] at hn2
          simp [evalCondE, hva, hch, hn2, Except.map]
      · exact ⟨na, by rw [pandasEval, hparse]; simp [evalCondE, hna], hmissa⟩
  · rcases parseCond_ok_or_syntax toks2 with h | h
    · exact Or.inl h
    · exact Or.inr (by rw [pandasEval, h]; rfl)
  · have hs1 : decide ("close" = "ema_20") = false := by simp
    have hs2 : decide ("ema_20" = "ema_20") = true := by simp
    norm_num [pandasEval, parseCond, parseArith, parseMul, parseAtom,
      parseMulChain, parseAddChain, parseChain, cmpOfTok, evalCondE,
      evalArith, evalChain, getCol, frameNoEma50, nRows, arithOpFn, cmpOpFn,
      Except.bind, Except.map, List.find?, hs1, hs2, List.replicate,
      List.zipWith]
  · rfl

/-- Witness for C6 as amended: the parsed `"ema_20 > ema_50"` over the frame
lacking `ema_50`, with the malformed `"ema_20 >"` as the second condition
text. -/
theorem C6_unknown_column_witness :
    (parseCond condEma = Except.ok
      ⟨ArithE.col "ema_20", [(CmpOp.gt, ArithE.col "ema_50")]⟩ ∧
      "ema_50" ∈ condCols
        ⟨ArithE.col "ema_20", [(CmpOp.gt, ArithE.col "ema_50")]⟩ ∧
      getCol frameNoEma50 "ema_50" = none) ∧
    ((∃ n2, pandasEval frameNoEma50 condEma =
        Except.error (PyExc.undefinedVariableError n2) ∧
      getCol frameNoEma50 n2 = none) ∧
    ((∃ ce2, parseCond condMalformed = Except.ok ce2) ∨
      pandasEval frameNoEma50 condMalformed = Except.error PyExc.syntaxError) ∧
    pandasEval frameNoEma50
        [CondTok.ident "ema_20", CondTok.addTok, CondTok.num 1] =
      Except.ok (EvalResult.numeric [2, 3]) ∧
    pandasEval frameNoEma50
        [CondTok.num 0, CondTok.ltTok, CondTok.ident "close",
          CondTok.ltTok, CondTok.num 3] =
      Except.ok (EvalResult.boolean [true, true])) :=
  ⟨⟨rfl, by simp [condCols, arithCols], rfl⟩,
    C6_unknown_column frameNoEma50 condEma condMalformed
      ⟨ArithE.col "ema_20", [(CmpOp.gt, ArithE.col "ema_50")]⟩ "ema_50"
      rfl (by simp [condCols, arithCols]) rfl⟩

end AlphaFlow
